import Mathlib

/-!
The module mod_authnz_pam: a shallow embedding of `mod_authnz_pam.c`.

Conventions of the embedding.

* A `char` is a natural number (its byte value); a C string is the list of bytes stored at
  the pointer, and the terminating NUL is implicit after the last element.  Every function
  that reads a string in C stops at the first NUL, so the embedding does the same (`cstr`).
* A pointer into a string is the suffix of the string that starts at the pointer:
  `*p` is the head (or the terminator `0` when the suffix is empty) and `p + 1` is the tail.
* A pointer that may be `NULL` is an `Option`.
* A computation that writes outside an allocated block has no defined result: `none`.
-/

namespace ModAuthnzPam

/-- A C string: the bytes stored at the pointer, terminator not included. -/
abbrev CString := List Nat

/-- The characters of the C string stored at a pointer: everything before the first NUL. -/
def cstr : CString → CString
  | [] => []
  | c :: rest => if c = 0 then [] else c :: cstr rest

/-- Length as computed by `strlen`. -/
def strlen (s : CString) : Nat := (cstr s).length

/-- ASCII text as a C string. -/
def ascii (s : String) : CString := s.toList.map Char.toNat

/-! ## `ap_escape_urlencoded` (source lines 114-130) -/

/-- The value of `*buffer` as an `int` argument: a plain `char` is sign-extended where `char`
is a signed type (x86), and is the byte itself where it is unsigned (ARM). -/
def charValue (signedChar : Bool) (c : Nat) : Int :=
  if signedChar && decide (128 ≤ c % 256) then (c % 256 : Int) - 256 else (c % 256 : Int)

/-- The classification `apr_isalnum(c)`, i.e. `isalnum((unsigned char)c)` in the C locale. -/
def apr_isalnum (c : Nat) : Bool :=
  (decide (48 ≤ c % 256) && decide (c % 256 ≤ 57)) ||
  (decide (65 ≤ c % 256) && decide (c % 256 ≤ 90)) ||
  (decide (97 ≤ c % 256) && decide (c % 256 ≤ 122))

/-- Whether `strchr(".-*_ ", c)` is non-NULL (the terminator is found when `c` is NUL). -/
def strchr_safe (c : Nat) : Bool :=
  c = 46 || c = 45 || c = 42 || c = 95 || c = 32 || c = 0

/-- Lowercase hexadecimal digit. -/
def hexDigit (d : Nat) : Nat := if d < 10 then 48 + d else 87 + d

/-- The digits of `n` in base 16, most significant first, at least one digit. -/
def hexDigits : Nat → Nat → List Nat
  | 0, _ => []
  | fuel + 1, n => if n < 16 then [hexDigit n] else hexDigits fuel (n / 16) ++ [hexDigit (n % 16)]

/-- The text `printf` produces for the conversion `%02x`: the `int` argument is read as a 32-bit
unsigned value and printed in lowercase hexadecimal, padded with `0` to two digits. -/
def fmt02x (v : Int) : List Nat :=
  let u := (v % 4294967296).toNat
  let ds := hexDigits 8 u
  if ds.length < 2 then 48 :: ds else ds

/-- A block returned by `apr_palloc`: each cell is uninitialised (`none`) until it is written. -/
abbrev Block := List (Option Nat)

/-- Write one `char` at offset `i` of a block; outside the block the write is undefined. -/
def Block.store (m : Block) (i v : Nat) : Option Block :=
  if i < m.length then some (m.set i (some v)) else none

/-- Write the characters `cs` at consecutive offsets from `i`. -/
def Block.storeAll (m : Block) : Nat → List Nat → Option Block
  | _, [] => some m
  | i, c :: cs => (Block.store m i c).bind (fun m1 => Block.storeAll m1 (i + 1) cs)

/-- Read the C string at offset 0 of a block: `none` when an uninitialised cell or the end of the
block is met before a NUL. -/
def Block.readCStr : Block → Option CString
  | [] => none
  | none :: _ => none
  | some c :: rest => if c = 0 then some [] else (Block.readCStr rest).map (fun s => c :: s)

/-- The call `snprintf(p, size, "%02x", v)`: at most `size - 1` characters of the text are
written at `p`, followed by a NUL; the value returned is the length of the whole text. -/
def snprintf_02x (m : Block) (p size : Nat) (v : Int) : Option (Block × Nat) :=
  let text := fmt02x v
  if size = 0 then some (m, text.length)
  else
    let shown := text.take (size - 1)
    (Block.storeAll m p (shown ++ [0])).map (fun m1 => (m1, text.length))

/-- The loop of `ap_escape_urlencoded`: `buffer` is the read pointer, `p` the offset of the write
pointer in `copy`. -/
def ap_escape_urlencoded_loop (signedChar : Bool) : CString → Block → Nat → Option (Block × Nat)
  | [], copy, p => some (copy, p)
  | c :: buffer, copy, p =>
    if c = 0 then some (copy, p)
    else if !apr_isalnum c && !strchr_safe c then
      (Block.store copy p 37).bind (fun copy1 =>
        (snprintf_02x copy1 (p + 1) 3 (charValue signedChar c)).bind (fun w =>
          ap_escape_urlencoded_loop signedChar buffer w.1 (p + 1 + w.2)))
    else if c = 32 then
      (Block.store copy p 43).bind (fun copy1 =>
        ap_escape_urlencoded_loop signedChar buffer copy1 (p + 1))
    else
      (Block.store copy p c).bind (fun copy1 =>
        ap_escape_urlencoded_loop signedChar buffer copy1 (p + 1))

/-- The module's own `ap_escape_urlencoded`: a block of `3 * strlen(buffer) + 1` bytes is
allocated, filled by the loop, terminated, and returned as a C string. -/
def ap_escape_urlencoded (signedChar : Bool) (buffer : CString) : Option CString :=
  let copy : Block := List.replicate (3 * strlen buffer + 1) none
  (ap_escape_urlencoded_loop signedChar buffer copy 0).bind (fun w =>
    (Block.store w.1 w.2 0).bind (fun copy1 => Block.readCStr copy1))

/-- The encoding of one byte as the spec words it: alphanumerics and `. - * _` unchanged, the
space as `+`, any other byte as `%` and its two hexadecimal digits. -/
def urlencoded_byte (b : Nat) : CString :=
  if apr_isalnum b || b = 46 || b = 45 || b = 42 || b = 95 then [b]
  else if b = 32 then [43]
  else [37, hexDigit (b / 16), hexDigit (b % 16)]

/-! ## APR string helpers and tables (library functions, by their documented behaviour) -/

/-- The call `apr_pstrdup(pool, s)`: a copy of the string, `NULL` for `NULL`. -/
def apr_pstrdup (s : Option CString) : Option CString := s.map cstr

/-- The call `apr_pstrndup(pool, s, n)`: a copy of at most `n` characters of the string. -/
def apr_pstrndup (s : CString) (n : Nat) : CString := (cstr s).take n

/-- The call `apr_pstrcat(pool, a, b, ..., NULL)`: the concatenation of the strings. -/
def apr_pstrcat (parts : List CString) : CString := (parts.map cstr).flatten

/-- An `apr_table_t`: entries in insertion order; a value may be a `NULL` pointer. -/
abbrev apr_table_t := List (String × Option CString)

/-- Table keys are compared without regard to case. -/
def key_eq (a b : String) : Bool :=
  a.toList.map Char.toLower == b.toList.map Char.toLower

/-- The call `apr_table_get(t, key)`: the value of the first entry with that key. -/
def apr_table_get : apr_table_t → String → Option CString
  | [], _ => none
  | (k, v) :: rest, key => if key_eq k key then v else apr_table_get rest key

/-- The call `apr_table_addn(t, key, val)`: a new entry is appended. -/
def apr_table_addn (t : apr_table_t) (key : String) (val : Option CString) : apr_table_t :=
  t ++ [(key, val)]

/-- The call `apr_table_setn(t, key, val)`: the first entry with that key gets the value and any
further entry with that key is removed; without such an entry a new one is appended. -/
def apr_table_setn : apr_table_t → String → Option CString → apr_table_t
  | [], key, val => [(key, val)]
  | (k, v) :: rest, key, val =>
    if key_eq k key then (k, val) :: rest.filter (fun e => !key_eq e.1 key)
    else (k, v) :: apr_table_setn rest key val

/-! ## Configuration and request -/

/-- Per-directory configuration (source lines 41-45). -/
structure authnz_pam_config_rec where
  pam_service : Option CString
  expired_redirect_url : Option CString
  expired_redirect_status : Int
  deriving DecidableEq, Repr

/-- The fields of `request_rec` the module reads or writes.  `construct_url` is the string
`ap_construct_url(r->pool, r->uri, r)` returns, `module_config` is what
`ap_get_module_config(r->per_dir_config, &authnz_pam_module)` returns. -/
structure request_rec where
  construct_url : CString
  args : Option CString
  user : Option CString
  status : Int
  headers_out : apr_table_t
  subprocess_env : apr_table_t
  module_config : Option authnz_pam_config_rec
  deriving DecidableEq, Repr

/-! ## `format_location` (source lines 134-167) -/

/-- The value `append` gets for the character `c` at `p` and the character `next` at `p + 1`
(source lines 139-150); `none` is the `NULL` pointer. -/
def format_location_append (r : request_rec) (login : Option CString) (c next : Nat) :
    Option CString :=
  if c = 37 then
    if next = 37 then some [37]
    else if next = 115 then
      match r.args with
      | some args => some (apr_pstrcat [r.construct_url, [63], args])
      | none => some r.construct_url
    else if next = 117 then login
    else none
  else none

/-- What is returned once the loop has ended with the scan pointer `p` (source lines 163-166). -/
def format_location_finish (p url out : CString) : CString :=
  if p.length ≠ url.length then apr_pstrcat [out, url] else out

/-- The `while (*p)` loop of `format_location`.  `p` and `url` are the suffixes of the template
at the two pointers, so `p != url` compares their lengths and `p - url` is the difference. -/
def format_location_loop (signedChar : Bool) (r : request_rec) (login : Option CString) :
    CString → CString → CString → Option CString
  | [], url, out => some (format_location_finish [] url out)
  | c :: rest, url, out =>
    if c = 0 then some (format_location_finish (c :: rest) url out)
    else
      match format_location_append r login c (rest.headD 0) with
      | some append =>
        let pfx : CString :=
          if (c :: rest).length ≠ url.length then
            apr_pstrndup url (url.length - (c :: rest).length)
          else []
        (ap_escape_urlencoded signedChar append).bind (fun escaped =>
          match rest with
          | [] => none
          | _ :: rest2 =>
            format_location_loop signedChar r login rest2 rest2 (apr_pstrcat [out, pfx, escaped]))
      | none => format_location_loop signedChar r login rest url out

/-- The function `format_location(r, url, login)`. -/
def format_location (signedChar : Bool) (r : request_rec) (url : CString)
    (login : Option CString) : Option CString :=
  format_location_loop signedChar r login url url []

/-! ## PAM constants (Linux-PAM `_pam_types.h`) and host enumerations (`mod_auth.h`) -/

/-- Return code `PAM_SUCCESS`. -/
def PAM_SUCCESS : Int := 0
/-- Return code `PAM_NEW_AUTHTOK_REQD`. -/
def PAM_NEW_AUTHTOK_REQD : Int := 12
/-- Return code `PAM_CONV_ERR`. -/
def PAM_CONV_ERR : Int := 19
/-- Message style `PAM_PROMPT_ECHO_OFF`. -/
def PAM_PROMPT_ECHO_OFF : Int := 1
/-- Message style `PAM_PROMPT_ECHO_ON`. -/
def PAM_PROMPT_ECHO_ON : Int := 2
/-- Message style `PAM_ERROR_MSG`. -/
def PAM_ERROR_MSG : Int := 3
/-- Message style `PAM_TEXT_INFO`. -/
def PAM_TEXT_INFO : Int := 4
/-- Status `HTTP_SEE_OTHER`. -/
def HTTP_SEE_OTHER : Int := 303

/-- The enumeration `authn_status`. -/
inductive authn_status where
  | AUTH_DENIED
  | AUTH_GRANTED
  | AUTH_USER_FOUND
  | AUTH_USER_NOT_FOUND
  | AUTH_GENERAL_ERROR
  deriving DecidableEq, Repr

/-! ## `pam_authenticate_conv` (source lines 85-108) -/

/-- One prompt, `struct pam_message`. -/
structure pam_message where
  msg_style : Int
  msg : CString
  deriving DecidableEq, Repr

/-- One answer, `struct pam_response`. -/
structure pam_response where
  resp : Option CString
  resp_retcode : Int
  deriving DecidableEq, Repr

/-- The call `strdup(s)`: a copy of the string, or `NULL` when the allocation fails. -/
def strdup (alloc_ok : Bool) (s : CString) : Option CString :=
  if alloc_ok then some (cstr s) else none

/-- The `for` loop of `pam_authenticate_conv` from index `i` on: `msg` holds the prompts
`msg[i], msg[i+1], ...` and `response` the cells `response[0..i)` written so far.  The result is
the filled array, or `none` when the loop frees the array and returns `PAM_CONV_ERR`. -/
def pam_authenticate_conv_loop (strdup_ok : Bool) (appdata_ptr : CString) :
    List pam_message → Nat → List pam_response → Option (List pam_response)
  | [], _, response => some response
  | m :: msg, i, response =>
    if m.msg_style = PAM_PROMPT_ECHO_OFF then
      let cell : pam_response :=
        if i = 0 then { resp := strdup strdup_ok appdata_ptr, resp_retcode := 0 }
        else { resp := none, resp_retcode := 0 }
      pam_authenticate_conv_loop strdup_ok appdata_ptr msg (i + 1) (response ++ [cell])
    else none

/-- The function `pam_authenticate_conv(num_msg, msg, resp, appdata_ptr)`, with `num_msg` the
length of the prompt array.  `resp_given` tells whether the output pointer `resp` is non-NULL;
`malloc_ok` and `strdup_ok` tell whether the two allocations succeed.  The result is the return
code and the value assigned to `*resp` (`none`: nothing is assigned). -/
def pam_authenticate_conv (malloc_ok strdup_ok : Bool) (msg : Option (List pam_message))
    (resp_given : Bool) (appdata_ptr : Option CString) : Int × Option (List pam_response) :=
  match msg, resp_given, appdata_ptr with
  | some prompts, true, some password =>
    if !malloc_ok then (PAM_CONV_ERR, none)
    else
      match pam_authenticate_conv_loop strdup_ok password prompts 0 [] with
      | some response => (PAM_SUCCESS, some response)
      | none => (PAM_CONV_ERR, none)
  | _, _, _ => (PAM_CONV_ERR, none)

/-! ## The verification routine (source lines 179-264) -/

/-- Levels of `ap_log_rerror`. -/
inductive LogLevel where
  | APLOG_ERR
  | APLOG_WARNING
  | APLOG_INFO
  deriving DecidableEq, Repr

/-- An argument of a log call. -/
inductive LogArg where
  | text (s : String)
  | str (s : Option CString)
  | int (n : Int)
  deriving DecidableEq, Repr

/-- Calls into PAM and the host that the routine makes, in order. -/
inductive Event where
  | pam_start (service : CString) (login : Option CString) (password : Option CString)
  | pam_set_item_rhost (host : CString)
  | pam_authenticate
  | pam_acct_mgmt
  | pam_strerror (code : Int)
  | pam_end (handle_open : Bool) (code : Int)
  | ap_log_rerror (level : LogLevel) (fmt : String) (args : List LogArg)
  | ap_send_error_response
  | store_password_to_cache (login password : Option CString)
  | authn_cache_store (scheme : CString) (login : CString) (extra : Option CString)
      (hash : CString)
  deriving DecidableEq, Repr

/-- The results the stubbed collaborators give during one call: the platform's signedness of
`char`, the PAM return codes, the peer name, the error strings, and the password cache. -/
structure Stubs where
  signedChar : Bool
  pam_start : Int
  remote_host_or_ip : Option CString
  pam_set_item : Int
  pam_authenticate : Int
  pam_acct_mgmt : Int
  pam_strerror : Int → CString
  authn_cache_store : Bool
  apr_generate_random_bytes : Option (List Nat)
  apr_bcrypt_encode : CString → List Nat → Option CString

/-- The function `store_password_to_cache(r, login, password)` (source lines 179-196): the
calls it makes. -/
def store_password_to_cache (st : Stubs) (login password : Option CString) : List Event :=
  match st.authn_cache_store, login, password with
  | true, some l, some pw =>
    match st.apr_generate_random_bytes with
    | none =>
      [Event.ap_log_rerror LogLevel.APLOG_WARNING
        "apr_generate_random_bytes failed, will not cache password" []]
    | some salt =>
      match st.apr_bcrypt_encode pw salt with
      | none =>
        [Event.ap_log_rerror LogLevel.APLOG_WARNING
          "apr_bcrypt_encode failed, will not cache password" []]
      | some hash => [Event.authn_cache_store [80, 65, 77] l none hash]
  | _, _, _ => []

/-- What one call of the verification routine leaves behind. -/
structure Outcome where
  result : authn_status
  r : request_rec
  events : List Event
  deriving DecidableEq, Repr

/-- The locals of `pam_authenticate_with_login_password` that change during the call, and the
calls made so far. -/
structure Locals where
  ret : Int
  stage : String
  param : Option CString
  events : List Event
  deriving DecidableEq, Repr

/-- Bit `_PAM_STEP_AUTH`. -/
def _PAM_STEP_AUTH : Nat := 1
/-- Bit `_PAM_STEP_ACCOUNT`. -/
def _PAM_STEP_ACCOUNT : Nat := 2
/-- Both bits, `_PAM_STEP_ALL`. -/
def _PAM_STEP_ALL : Nat := 3

/-- Source lines 211-222: `pam_start`, then `pam_set_item` when the peer name is known. -/
def pam_open (st : Stubs) (pam_service : CString) (login password : Option CString) : Locals :=
  let l0 : Locals :=
    { ret := st.pam_start
      stage := "PAM transaction failed for service"
      param := some pam_service
      events := [Event.pam_start pam_service login password] }
  if l0.ret = PAM_SUCCESS then
    match st.remote_host_or_ip with
    | some host =>
      { l0 with stage := "PAM pam_set_item PAM_RHOST failed for service"
                ret := st.pam_set_item
                events := l0.events ++ [Event.pam_set_item_rhost host] }
    | none => l0
  else l0

/-- Source lines 235-243: the redirect for expired credentials, which returns from the
function. -/
def pam_expired_redirect (st : Stubs) (r : request_rec) (login : Option CString)
    (conf : authnz_pam_config_rec) (url : CString) (l : Locals) : Option Outcome :=
  (format_location st.signedChar r url login).map (fun location =>
    { result := authn_status.AUTH_DENIED
      r := { r with headers_out := apr_table_addn r.headers_out "Location" (some location)
                    status := conf.expired_redirect_status }
      events := l.events ++
        [Event.ap_log_rerror LogLevel.APLOG_ERR
           "PAM_NEW_AUTHTOK_REQD: redirect to [%s] using [%d]"
           [LogArg.str (some url), LogArg.int conf.expired_redirect_status],
         Event.ap_send_error_response] })

/-- Source lines 224-228: the authentication step, when requested. -/
def pam_step_authenticate (st : Stubs) (login : Option CString) (steps : Nat) (l : Locals) :
    Locals :=
  if steps &&& _PAM_STEP_AUTH ≠ 0 then
    { l with param := login
             stage := "PAM authentication failed for user"
             ret := st.pam_authenticate
             events := l.events ++ [Event.pam_authenticate] }
  else l

/-- Source lines 229-245: the account validation step, when requested and reached.  `Sum.inl` is
the return taken inside the block, `Sum.inr` the locals with which control leaves the block. -/
def pam_step_account (st : Stubs) (r : request_rec) (login : Option CString) (steps : Nat)
    (l : Locals) : Option (Outcome ⊕ Locals) :=
  if l.ret = PAM_SUCCESS ∧ steps &&& _PAM_STEP_ACCOUNT ≠ 0 then
    let l2 : Locals :=
      { l with param := login
               stage := "PAM account validation failed for user"
               ret := st.pam_acct_mgmt
               events := l.events ++ [Event.pam_acct_mgmt] }
    if l2.ret = PAM_NEW_AUTHTOK_REQD then
      match r.module_config with
      | some conf =>
        match conf.expired_redirect_url with
        | some url => (pam_expired_redirect st r login conf url l2).map Sum.inl
        | none => some (Sum.inr l2)
      | none => some (Sum.inr l2)
    else some (Sum.inr l2)
  else some (Sum.inr l)

/-- Source lines 223-246: the requested steps, run only when the session was opened. -/
def pam_steps (st : Stubs) (r : request_rec) (login : Option CString) (steps : Nat)
    (l : Locals) : Option (Outcome ⊕ Locals) :=
  if l.ret = PAM_SUCCESS then
    pam_step_account st r login steps (pam_step_authenticate st login steps l)
  else some (Sum.inr l)

/-- Source lines 247-264: the denial with its diagnostic, or the grant.  The call of
`store_password_to_cache` is recorded as an event of its own, followed by the calls that
function makes. -/
def pam_conclude (st : Stubs) (r : request_rec) (login password : Option CString) (steps : Nat)
    (pamh : Bool) (l : Locals) : Outcome :=
  if l.ret ≠ PAM_SUCCESS then
    let strerr := st.pam_strerror l.ret
    { result := authn_status.AUTH_DENIED
      r := { r with subprocess_env :=
               apr_table_setn r.subprocess_env "EXTERNAL_AUTH_ERROR" (apr_pstrdup (some strerr)) }
      events := l.events ++
        [Event.pam_strerror l.ret,
         Event.ap_log_rerror LogLevel.APLOG_WARNING "%s %s: %s"
           [LogArg.text l.stage, LogArg.str l.param, LogArg.str (some strerr)],
         Event.pam_end pamh l.ret] }
  else
    { result := authn_status.AUTH_GRANTED
      r := { r with subprocess_env := apr_table_setn r.subprocess_env "REMOTE_USER" login
                    user := apr_pstrdup login }
      events := l.events ++
        [Event.ap_log_rerror LogLevel.APLOG_INFO "PAM authentication passed for user %s"
           [LogArg.str login],
         Event.pam_end pamh l.ret] ++
        (if steps &&& _PAM_STEP_AUTH ≠ 0 then
           Event.store_password_to_cache login password ::
             store_password_to_cache st login password
         else []) }

/-- The function `pam_authenticate_with_login_password(r, pam_service, login, password, steps)`
(source lines 204-264).  The handle `pamh` is non-NULL exactly when `pam_start` succeeded.
The result is `none` only when `format_location` has no defined result. -/
def pam_authenticate_with_login_password (st : Stubs) (r : request_rec) (pam_service : CString)
    (login password : Option CString) (steps : Nat) : Option Outcome :=
  let pamh : Bool := decide (st.pam_start = PAM_SUCCESS)
  (pam_steps st r login steps (pam_open st pam_service login password)).map (fun x =>
    match x with
    | Sum.inl early => early
    | Sum.inr l => pam_conclude st r login password steps pamh l)

/-- Whether an event is a call of `pam_end`. -/
def Event.isPamEnd : Event → Bool
  | Event.pam_end _ _ => true
  | _ => false

/-- Number of `pam_end` calls among the events. -/
def pam_end_calls (events : List Event) : Nat := (events.filter Event.isPamEnd).length

/-- No `pam_end` and no `ap_send_error_response` among the events. -/
def quiet (events : List Event) : Prop :=
  pam_end_calls events = 0 ∧ Event.ap_send_error_response ∉ events

/-- The redirect URL of the request's configuration, when there is one: the test
`conf && conf->expired_redirect_url` of source line 235. -/
def expired_redirect_url (r : request_rec) : Option CString :=
  r.module_config.bind (fun conf => conf.expired_redirect_url)

/-! ## Templates as sequences of pieces, for stating what `format_location` produces -/

/-- A piece of a redirect template: literal text, the token `%u`, or the token `%s`. -/
inductive Piece where
  | literal (text : CString)
  | login
  | url
  deriving DecidableEq, Repr

/-- The text of a piece in the template. -/
def Piece.template : Piece → CString
  | Piece.literal text => text
  | Piece.login => [37, 117]
  | Piece.url => [37, 115]

/-- The text of a piece in the output: `u` is what `%u` stands for, `s` what `%s` stands for. -/
def Piece.output (u s : CString) : Piece → CString
  | Piece.literal text => text
  | Piece.login => u
  | Piece.url => s

/-- Literal text holds neither `%` nor NUL. -/
def Piece.wellFormed : Piece → Prop
  | Piece.literal text => 37 ∉ text ∧ 0 ∉ text
  | Piece.login => True
  | Piece.url => True

/-- Well-formedness of a piece can be computed. -/
instance (p : Piece) : Decidable p.wellFormed := by
  cases p <;> unfold Piece.wellFormed <;> infer_instance

/-- The current URL with `?` and the query string when the request has one: the value the spec
gives to `%s`. -/
def current_url (r : request_rec) : CString :=
  match r.args with
  | some query => r.construct_url ++ [63] ++ query
  | none => r.construct_url

/-! ## `set_redirect_and_status` (source lines 52-73) -/

/-- The classification `apr_isspace(c)` in the C locale. -/
def apr_isspace (c : Nat) : Bool := c = 32 || (decide (9 ≤ c) && decide (c ≤ 13))

/-- The string behind the leading white space. -/
def skip_space : CString → CString
  | [] => []
  | c :: rest => if apr_isspace c then skip_space rest else c :: rest

/-- The value of the leading decimal digits of a string, continuing from `acc`; the scan stops
at the first character that is no digit. -/
def decimal_value : CString → Nat → Nat
  | [], acc => acc
  | c :: rest, acc =>
    if 48 ≤ c ∧ c ≤ 57 then decimal_value rest (acc * 10 + (c - 48)) else acc

/-- The call `apr_atoi64(buf)`, that is `apr_strtoi64(buf, NULL, 10)` (library function, by its
documented behaviour): white space is skipped, a sign is taken, the leading digits are read, and
a value outside the 64-bit range is replaced by the nearest bound.  Without a digit the value
is 0. -/
def apr_atoi64 (buf : CString) : Int :=
  let s := skip_space buf
  let v : Int :=
    match s with
    | [] => 0
    | c :: rest =>
      if c = 45 then -((decimal_value rest 0 : Nat) : Int)
      else if c = 43 then ((decimal_value rest 0 : Nat) : Int)
      else ((decimal_value s 0 : Nat) : Int)
  if v > 9223372036854775807 then 9223372036854775807
  else if v < -9223372036854775808 then -9223372036854775808
  else v

/-- The conversion of an `apr_int64_t` to `int` on assignment: the value modulo 2^32, in the
range of a 32-bit `int`. -/
def int_of_int64 (v : Int) : Int := (v + 2147483648) % 4294967296 - 2147483648

/-- The function `set_redirect_and_status(cmd, conf_void, url, status)`: the configuration
record after the call, and the warnings logged with `ap_log_error`.  `status` is `none` when
the directive has one argument. -/
def set_redirect_and_status (conf_void : Option authnz_pam_config_rec) (url : CString)
    (status : Option CString) : Option authnz_pam_config_rec × List String :=
  match conf_void with
  | none => (none, [])
  | some cfg =>
    let cfg1 : authnz_pam_config_rec :=
      { cfg with expired_redirect_url := apr_pstrdup (some url)
                 expired_redirect_status := HTTP_SEE_OTHER }
    match status with
    | none => (some cfg1, [])
    | some text =>
      let cfg2 : authnz_pam_config_rec :=
        { cfg1 with expired_redirect_status := int_of_int64 (apr_atoi64 text) }
      if cfg2.expired_redirect_status = 0 then
        (some { cfg2 with expired_redirect_status := HTTP_SEE_OTHER },
          ["AuthPAMExpiredRedirect status has to be a number, setting to %d"])
      else if cfg2.expired_redirect_status < 300 ∨ cfg2.expired_redirect_status > 399 then
        (some { cfg2 with expired_redirect_status := HTTP_SEE_OTHER },
          ["AuthPAMExpiredRedirect status has to be in the 3xx range, setting to %d"])
      else (some cfg2, [])

/-! ## The providers (source lines 270-298) -/

/-- The function `pam_auth_account(r, login, password)`.  The configuration record is
dereferenced without a test, so without a record there is no defined result. -/
def pam_auth_account (st : Stubs) (r : request_rec) (login password : Option CString) :
    Option Outcome :=
  match r.module_config with
  | none => none
  | some conf =>
    match conf.pam_service with
    | none => some { result := authn_status.AUTH_GENERAL_ERROR, r := r, events := [] }
    | some pam_service =>
      pam_authenticate_with_login_password st r pam_service login password _PAM_STEP_ALL

/-- The enumeration `authz_status`. -/
inductive authz_status where
  | AUTHZ_DENIED
  | AUTHZ_GRANTED
  | AUTHZ_NEUTRAL
  | AUTHZ_GENERAL_ERROR
  | AUTHZ_DENIED_NO_USER
  deriving DecidableEq, Repr

/-- The arguments of one call of `pam_authenticate_with_login_password`. -/
structure Invocation where
  pam_service : CString
  login : Option CString
  password : Option CString
  steps : Nat
  deriving DecidableEq, Repr

/-- What one call of `check_user_access` leaves behind: its result, the request, the events of
the verification routine, and the calls of that routine with their arguments. -/
structure AccessOutcome where
  result : authz_status
  r : request_rec
  events : List Event
  calls : List Invocation
  deriving DecidableEq, Repr

/-- The function `check_user_access(r, require_args, parsed_require_args)` of source lines
285-298.  The library function `ap_getword_conf`, which takes the first word of the directive's
arguments, is a parameter. -/
def check_user_access (st : Stubs) (ap_getword_conf : CString → Option CString)
    (r : request_rec) (require_args : CString) : Option AccessOutcome :=
  match r.user with
  | none =>
    some { result := authz_status.AUTHZ_DENIED_NO_USER, r := r, events := [], calls := [] }
  | some user =>
    match ap_getword_conf require_args with
    | some pam_service =>
      if pam_service.headD 0 ≠ 0 then
        (pam_authenticate_with_login_password st r pam_service (some user) none
            _PAM_STEP_ACCOUNT).map (fun o =>
          { result :=
              if o.result = authn_status.AUTH_GRANTED then authz_status.AUTHZ_GRANTED
              else authz_status.AUTHZ_DENIED
            r := o.r
            events := o.events
            calls :=
              [{ pam_service := pam_service, login := some user, password := none,
                 steps := _PAM_STEP_ACCOUNT }] })
      else some { result := authz_status.AUTHZ_DENIED, r := r, events := [], calls := [] }
    | none => some { result := authz_status.AUTHZ_DENIED, r := r, events := [], calls := [] }

/-! ## Concrete inputs used in the examples -/

/-- A request for `https://host/a?q=1` whose configuration redirects expired accounts to
`https://host/renew?u=%u` with status 307. -/
def request_with_redirect : request_rec :=
  { construct_url := ascii "https://host/a"
    args := some (ascii "q=1")
    user := none
    status := 200
    headers_out := []
    subprocess_env := []
    module_config := some
      { pam_service := some (ascii "webapp")
        expired_redirect_url := some (ascii "https://host/renew?u=%u")
        expired_redirect_status := 307 } }

/-- The same request under a configuration without a redirect URL. -/
def request_without_redirect : request_rec :=
  { request_with_redirect with
    module_config := some
      { pam_service := some (ascii "webapp")
        expired_redirect_url := none
        expired_redirect_status := 0 } }

/-- The error strings of the stubbed `pam_strerror`. -/
def stub_strerror (code : Int) : CString :=
  if code = 7 then ascii "Authentication failure"
  else if code = 12 then ascii "Authentication token is no longer valid; new one required"
  else if code = 13 then ascii "User account has expired"
  else ascii "Unknown PAM error"

/-- Stubs under which every PAM call succeeds; the peer is `192.0.2.1`. -/
def stubs_success : Stubs :=
  { signedChar := true
    pam_start := PAM_SUCCESS
    remote_host_or_ip := some (ascii "192.0.2.1")
    pam_set_item := PAM_SUCCESS
    pam_authenticate := PAM_SUCCESS
    pam_acct_mgmt := PAM_SUCCESS
    pam_strerror := stub_strerror
    authn_cache_store := false
    apr_generate_random_bytes := none
    apr_bcrypt_encode := fun _ _ => none }

/-- Stubs under which account validation reports `PAM_NEW_AUTHTOK_REQD`. -/
def stubs_expired : Stubs := { stubs_success with pam_acct_mgmt := PAM_NEW_AUTHTOK_REQD }

/-- Stubs under which authentication reports `PAM_AUTH_ERR` (7). -/
def stubs_auth_err : Stubs := { stubs_success with pam_authenticate := 7 }

/-- Stubs under which account validation reports `PAM_ACCT_EXPIRED` (13). -/
def stubs_acct_expired : Stubs := { stubs_success with pam_acct_mgmt := 13 }

/-- A configuration record as `create_dir_conf` makes it: all fields zero. -/
def empty_config : authnz_pam_config_rec :=
  { pam_service := none, expired_redirect_url := none, expired_redirect_status := 0 }

/-- The request of `request_with_redirect` under a configuration without `AuthPAMService`. -/
def request_without_service : request_rec :=
  { request_with_redirect with module_config := some empty_config }

/-- The request of `request_with_redirect` once the user `bob` is authenticated. -/
def request_of_bob : request_rec :=
  { request_with_redirect with user := some (ascii "bob") }

/-- A stand-in for `ap_getword_conf`: the characters up to the first space. -/
def first_word (line : CString) : Option CString :=
  some ((cstr line).takeWhile (fun c => c != 32))

/-- Whether an event is a call of `store_password_to_cache`. -/
def Event.isCacheOffer : Event → Bool
  | Event.store_password_to_cache _ _ => true
  | _ => false

/-- Number of calls of `store_password_to_cache` among the events. -/
def cache_offers (events : List Event) : Nat := (events.filter Event.isCacheOffer).length

/-- Whether an event is a call of the external cache store. -/
def Event.isCacheStore : Event → Bool
  | Event.authn_cache_store _ _ _ _ => true
  | _ => false

/-- Number of calls of the external cache store among the events. -/
def cache_store_calls (events : List Event) : Nat := (events.filter Event.isCacheStore).length

/-- Stubs with a registered password cache, a salt of sixteen bytes, and a hashing function that
returns a fixed bcrypt string. -/
def stubs_cache : Stubs :=
  { stubs_success with
    authn_cache_store := true
    apr_generate_random_bytes := some [1, 2, 3, 4, 5, 6, 7, 8, 9, 10, 11, 12, 13, 14, 15, 16]
    apr_bcrypt_encode := fun _ _ =>
      some (ascii "$2y$05$AQIDBAUGBwgJCgsMDQ4PEOo0NiA2uMZ7GzSWSgi8xGkGXImeZpUbK") }

/-- Stubs under which `pam_start` reports `PAM_SYSTEM_ERR` (4). -/
def stubs_start_err : Stubs := { stubs_success with pam_start := 4 }

/-- Stubs under which `pam_set_item` reports `PAM_BUF_ERR` (5). -/
def stubs_item_err : Stubs := { stubs_success with pam_set_item := 5 }

/-! ## The scan of `format_location` with the pointers as offsets

The loop of source lines 138-162 once more, this time with `p` and `url` as offsets into the
array that holds the template and its terminator, every read checked against the bounds of that
array, and a bound on the number of iterations.  Each offset read and each length `p - url`
passed to `apr_pstrndup` is recorded. -/

/-- How a scan ends: the loop has left at a NUL, the iterations are used up, a read fell
outside the array, or `ap_escape_urlencoded` had no defined result. -/
inductive ScanExit where
  | finished
  | out_of_fuel
  | out_of_bounds
  | escape_undefined
  deriving DecidableEq, Repr

/-- The state of the loop, with the offsets read so far and the lengths `p - url` copied. -/
structure Scan where
  p : Nat
  url : Nat
  out : CString
  reads : List Nat
  copies : List Int
  deriving DecidableEq, Repr

/-- The character at an offset of the array that holds the template and its terminator;
`none` outside the array. -/
def template_at (t : CString) (i : Nat) : Option Nat := (t ++ [0])[i]?

/-- The loop with offsets, for at most `fuel` iterations.  The copy of `p - url` characters is
made with the difference as a natural number. -/
def format_location_scan (signedChar : Bool) (r : request_rec) (login : Option CString)
    (t : CString) : Nat → Scan → Scan × ScanExit
  | 0, s => (s, ScanExit.out_of_fuel)
  | fuel + 1, s =>
    let s1 : Scan := { s with reads := s.reads ++ [s.p] }
    match template_at t s.p with
    | none => (s1, ScanExit.out_of_bounds)
    | some c =>
      if c = 0 then
        ({ s1 with out := if s.p ≠ s.url then apr_pstrcat [s.out, t.drop s.url] else s.out },
          ScanExit.finished)
      else if c = 37 then
        let s2 : Scan := { s1 with reads := s1.reads ++ [s.p + 1] }
        match template_at t (s.p + 1) with
        | none => (s2, ScanExit.out_of_bounds)
        | some next =>
          match format_location_append r login c next with
          | some append =>
            let s3 : Scan :=
              if s.p ≠ s.url then
                { s2 with copies := s2.copies ++ [(s.p : Int) - (s.url : Int)] }
              else s2
            let pfx : CString :=
              if s.p ≠ s.url then apr_pstrndup (t.drop s.url) (s.p - s.url) else []
            match ap_escape_urlencoded signedChar append with
            | none => (s3, ScanExit.escape_undefined)
            | some escaped =>
              format_location_scan signedChar r login t fuel
                { s3 with out := apr_pstrcat [s.out, pfx, escaped]
                          p := s.p + 2
                          url := s.p + 2 }
          | none => format_location_scan signedChar r login t fuel { s2 with p := s.p + 1 }
      else format_location_scan signedChar r login t fuel { s1 with p := s.p + 1 }

/-- The scan of a whole template: from offset 0, with one iteration for each character of the
array. -/
def format_location_run (signedChar : Bool) (r : request_rec) (login : Option CString)
    (t : CString) : Scan × ScanExit :=
  format_location_scan signedChar r login t (t.length + 1)
    { p := 0, url := 0, out := [], reads := [], copies := [] }

/-- What is to be shown of a scan that went from the state `s` to the result `res`: it ended at
a NUL or at an undefined escape, the offsets stayed ordered and inside the array, each offset
read since `s` is inside the array with no NUL in front of it, and each length copied since `s`
is non-negative. -/
def scan_in_bounds (t : CString) (s : Scan) (res : Scan × ScanExit) : Prop :=
  (res.2 = ScanExit.finished ∨ res.2 = ScanExit.escape_undefined) ∧
  res.1.url ≤ res.1.p ∧ res.1.p ≤ t.length ∧
  (∀ i ∈ res.1.reads, i ∈ s.reads ∨ (i ≤ t.length ∧ ∀ j, j < i → template_at t j ≠ some 0)) ∧
  (∀ n ∈ res.1.copies, n ∈ s.copies ∨ 0 ≤ n) ∧
  (res.2 = ScanExit.finished → template_at t res.1.p = some 0)

/-! ## Lemmas on C strings -/

theorem cstr_eq_self {s : CString} (h : 0 ∉ s) : cstr s = s := by
  induction s with
  | nil => rfl
  | cons c rest ih =>
    have hc : c ≠ 0 := fun e => h (by simp [e])
    have hr : 0 ∉ rest := fun e => h (by simp [e])
    simp [cstr, hc, ih hr]

theorem cstr_append {a : CString} (b : CString) (h : 0 ∉ a) : cstr (a ++ b) = a ++ cstr b := by
  induction a with
  | nil => rfl
  | cons c rest ih =>
    have hc : c ≠ 0 := fun e => h (by simp [e])
    have hr : 0 ∉ rest := fun e => h (by simp [e])
    simp [cstr, hc, ih hr]

theorem zero_not_mem_cstr (s : CString) : 0 ∉ cstr s := by
  induction s with
  | nil => simp [cstr]
  | cons c rest ih =>
    by_cases hc : c = 0
    · simp [cstr, hc]
    · simp only [cstr, hc, if_false, List.mem_cons, not_or]
      exact ⟨fun e => hc e.symm, ih⟩

theorem zero_not_mem_readCStr : ∀ (m : Block) (s : CString), Block.readCStr m = some s → 0 ∉ s := by
  intro m
  induction m with
  | nil => intro s h; simp [Block.readCStr] at h
  | cons cell rest ih =>
    intro s h
    cases cell with
    | none => simp [Block.readCStr] at h
    | some c =>
      by_cases hc : c = 0
      · subst hc
        simp only [Block.readCStr, if_true, Option.some.injEq] at h
        subst h
        simp
      · simp only [Block.readCStr, hc, if_false, Option.map_eq_some'] at h
        obtain ⟨t, ht, rfl⟩ := h
        simp only [List.mem_cons, not_or]
        exact ⟨fun e => hc e.symm, ih t ht⟩

theorem zero_not_mem_escape {signedChar : Bool} {buffer e : CString}
    (h : ap_escape_urlencoded signedChar buffer = some e) : 0 ∉ e := by
  unfold ap_escape_urlencoded at h
  simp only [Option.bind_eq_some] at h
  obtain ⟨w, _, m, _, hm⟩ := h
  exact zero_not_mem_readCStr m e hm

/-! ## The scan of `format_location`, one token at a time -/

theorem format_location_finish_eq (p seg out : CString) (hp : cstr p = [])
    (hseg : 0 ∉ seg) (hout : 0 ∉ out) :
    format_location_finish p (seg ++ p) out = out ++ seg := by
  unfold format_location_finish
  cases seg with
  | nil => simp
  | cons c rest =>
    have hne : p.length ≠ (c :: rest ++ p).length := by simp; omega
    simp only [hne, ne_eq, not_false_eq_true, if_true, apr_pstrcat, List.map_cons, List.map_nil,
      List.flatten_cons, List.flatten_nil, List.append_nil]
    rw [cstr_eq_self hout, cstr_append p hseg, hp, List.append_nil]

theorem format_location_pfx_eq (p seg : CString) (hseg : 0 ∉ seg) :
    (if p.length ≠ (seg ++ p).length then
        apr_pstrndup (seg ++ p) ((seg ++ p).length - p.length) else []) = seg := by
  cases seg with
  | nil => simp
  | cons c rest =>
    have hne : p.length ≠ (c :: rest ++ p).length := by simp; omega
    simp only [hne, ne_eq, not_false_eq_true, if_true, apr_pstrndup]
    rw [cstr_append p hseg]
    have hl : (c :: rest ++ p).length - p.length = (c :: rest).length := by
      simp only [List.length_append, List.length_cons]; omega
    rw [hl, List.take_left']
    rfl

/-- The accumulated output and the pending literal segment only stand in front of what the scan
of the rest of the template produces. -/
theorem format_location_loop_acc (signedChar : Bool) (r : request_rec) (login : Option CString) :
    ∀ (n : Nat) (p seg out : CString), p.length ≤ n → 0 ∉ seg → 0 ∉ out →
      format_location_loop signedChar r login p (seg ++ p) out =
        (format_location_loop signedChar r login p p []).map (fun x => out ++ seg ++ x) := by
  intro n
  induction n with
  | zero =>
    intro p seg out hn hseg hout
    have hp : p = [] := List.length_eq_zero.mp (Nat.le_zero.mp hn)
    subst hp
    have h1 := format_location_finish_eq [] seg out rfl hseg hout
    have h2 := format_location_finish_eq [] [] [] rfl (by simp) (by simp)
    simp only [List.append_nil] at h1 h2
    simp [format_location_loop, h1, h2]
  | succ n ih =>
    intro p seg out hn hseg hout
    cases p with
    | nil =>
      have h1 := format_location_finish_eq [] seg out rfl hseg hout
      have h2 := format_location_finish_eq [] [] [] rfl (by simp) (by simp)
      simp only [List.append_nil] at h1 h2
      simp [format_location_loop, h1, h2]
    | cons c rest =>
      by_cases hc : c = 0
      · subst hc
        have h1 := format_location_finish_eq (0 :: rest) seg out (by simp [cstr]) hseg hout
        have h2 := format_location_finish_eq (0 :: rest) [] [] (by simp [cstr]) (by simp) (by simp)
        simp only [List.nil_append] at h2
        simp [format_location_loop, h1, h2]
      · have hlen : rest.length ≤ n := by simpa using hn
        have hpfx := format_location_pfx_eq (c :: rest) seg hseg
        have hpfx0 := format_location_pfx_eq (c :: rest) [] (by simp)
        simp only [List.nil_append] at hpfx0
        rw [format_location_loop, format_location_loop]
        simp only [hc, if_false]
        cases hA : format_location_append r login c (rest.headD 0) with
        | none =>
          simp only []
          have e1 : seg ++ c :: rest = (seg ++ [c]) ++ rest := by simp
          have hseg1 : 0 ∉ seg ++ [c] := by
            simp only [List.mem_append, List.mem_singleton, not_or]
            exact ⟨hseg, fun e => hc e.symm⟩
          have hc1 : 0 ∉ [c] := by simpa using fun e => hc e.symm
          rw [e1, ih rest (seg ++ [c]) out hlen hseg1 hout]
          have e2 : c :: rest = [c] ++ rest := rfl
          rw [e2, ih rest [c] [] hlen hc1 (by simp), Option.map_map]
          congr 1
          funext x
          simp
        | some a =>
          simp only [hpfx, hpfx0]
          cases hE : ap_escape_urlencoded signedChar a with
          | none => simp
          | some e =>
            have he : 0 ∉ e := zero_not_mem_escape hE
            cases rest with
            | nil => simp
            | cons d rest2 =>
              have hlen2 : rest2.length ≤ n := by
                simp only [List.length_cons] at hlen; omega
              have hcat : apr_pstrcat [out, seg, e] = out ++ seg ++ e := by
                simp [apr_pstrcat, cstr_eq_self hout, cstr_eq_self hseg, cstr_eq_self he]
              have hcat0 : apr_pstrcat [[], [], e] = e := by
                simp [apr_pstrcat, cstr_eq_self he, cstr]
              have hout1 : 0 ∉ out ++ seg ++ e := by
                simp only [List.mem_append, not_or]
                exact ⟨⟨hout, hseg⟩, he⟩
              simp only [Option.some_bind, hcat, hcat0]
              have h1 := ih rest2 [] (out ++ seg ++ e) hlen2 (by simp) hout1
              have h2 := ih rest2 [] e hlen2 (by simp) he
              simp only [List.nil_append, List.append_nil] at h1 h2
              rw [h1, h2, Option.map_map]
              congr 1
              funext x
              simp

theorem format_location_nil (signedChar : Bool) (r : request_rec) (login : Option CString) :
    format_location signedChar r [] login = some [] := by
  simp [format_location, format_location_loop, format_location_finish]

/-- A character that starts no token is copied, and the scan goes on behind it. -/
theorem format_location_literal (signedChar : Bool) (r : request_rec) (login : Option CString)
    (c : Nat) (rest : CString) (hc : c ≠ 0)
    (hA : format_location_append r login c (rest.headD 0) = none) :
    format_location signedChar r (c :: rest) login =
      (format_location signedChar r rest login).map (fun x => c :: x) := by
  unfold format_location
  rw [format_location_loop]
  simp only [hc, if_false, hA]
  have hc1 : 0 ∉ [c] := by simpa using fun e => hc e.symm
  have h := format_location_loop_acc signedChar r login rest.length rest [c] [] (le_refl _) hc1
    (by simp)
  simp only [List.singleton_append, List.nil_append] at h
  exact h

/-- A token is replaced by the escaped value, and the scan goes on behind its two characters. -/
theorem format_location_token (signedChar : Bool) (r : request_rec) (login : Option CString)
    (c d : Nat) (rest append escaped : CString) (hc : c ≠ 0)
    (hA : format_location_append r login c d = some append)
    (hE : ap_escape_urlencoded signedChar append = some escaped) :
    format_location signedChar r (c :: d :: rest) login =
      (format_location signedChar r rest login).map (fun x => escaped ++ x) := by
  unfold format_location
  rw [format_location_loop]
  have he : 0 ∉ escaped := zero_not_mem_escape hE
  have hcat : apr_pstrcat [[], [], escaped] = escaped := by
    simp [apr_pstrcat, cstr_eq_self he, cstr]
  simp only [hc, if_false, List.headD_cons, hA, hE, Option.some_bind, ne_eq, not_true_eq_false,
    hcat]
  have h := format_location_loop_acc signedChar r login rest.length rest [] escaped (le_refl _)
    (by simp) he
  simp only [List.nil_append, List.append_nil] at h
  exact h

theorem format_location_append_of_ne (r : request_rec) (login : Option CString) (c next : Nat)
    (hc : c ≠ 37) : format_location_append r login c next = none := by
  simp [format_location_append, hc]

theorem format_location_append_of_next (r : request_rec) (login : Option CString) (c next : Nat)
    (h : next ≠ 37 ∧ next ≠ 115 ∧ next ≠ 117) : format_location_append r login c next = none := by
  simp [format_location_append, h.1, h.2.1, h.2.2]

/-- A template without `%` and NUL comes back unchanged. -/
theorem format_location_plain (signedChar : Bool) (r : request_rec) (login : Option CString) :
    ∀ (t : CString), 37 ∉ t → 0 ∉ t → format_location signedChar r t login = some t := by
  intro t
  induction t with
  | nil => intro _ _; exact format_location_nil signedChar r login
  | cons c rest ih =>
    intro h37 h0
    have hc0 : c ≠ 0 := fun e => h0 (by simp [e])
    have hc37 : c ≠ 37 := fun e => h37 (by simp [e])
    have hr37 : 37 ∉ rest := fun e => h37 (by simp [e])
    have hr0 : 0 ∉ rest := fun e => h0 (by simp [e])
    rw [format_location_literal signedChar r login c rest hc0
      (format_location_append_of_ne r login c _ hc37), ih hr37 hr0]
    rfl

/-- Literal text in front of the rest of a template is copied in front of the rest's output. -/
theorem format_location_plain_append (signedChar : Bool) (r : request_rec)
    (login : Option CString) (rest : CString) :
    ∀ (t : CString), 37 ∉ t → 0 ∉ t →
      format_location signedChar r (t ++ rest) login =
        (format_location signedChar r rest login).map (fun x => t ++ x) := by
  intro t
  induction t with
  | nil => intro _ _; simp
  | cons c t ih =>
    intro h37 h0
    have hc0 : c ≠ 0 := fun e => h0 (by simp [e])
    have hc37 : c ≠ 37 := fun e => h37 (by simp [e])
    have hr37 : 37 ∉ t := fun e => h37 (by simp [e])
    have hr0 : 0 ∉ t := fun e => h0 (by simp [e])
    rw [List.cons_append, format_location_literal signedChar r login c (t ++ rest) hc0
      (format_location_append_of_ne r login c _ hc37), ih hr37 hr0, Option.map_map]
    rfl

theorem ap_escape_urlencoded_percent (signedChar : Bool) :
    ap_escape_urlencoded signedChar [37] = some [37, 50, 53] := by
  cases signedChar <;> decide

/-- The token `%%` comes out as the escaped percent sign `%25`. -/
theorem format_location_double_percent (signedChar : Bool) (r : request_rec)
    (login : Option CString) (a b : CString) (ha37 : 37 ∉ a) (ha0 : 0 ∉ a) (hb37 : 37 ∉ b)
    (hb0 : 0 ∉ b) :
    format_location signedChar r (a ++ [37, 37] ++ b) login = some (a ++ [37, 50, 53] ++ b) := by
  have hA : format_location_append r login 37 37 = some [37] := by
    simp [format_location_append]
  rw [List.append_assoc, format_location_plain_append signedChar r login _ a ha37 ha0]
  have e : [37, 37] ++ b = 37 :: 37 :: b := rfl
  rw [e, format_location_token signedChar r login 37 37 b [37] [37, 50, 53] (by decide) hA
    (ap_escape_urlencoded_percent signedChar), format_location_plain signedChar r login b hb37 hb0]
  simp

/-! ## Claims on `format_location` -/

/-- C1 (the code departs from the claim): on the template `100%% done` the function returns
`100%25 done`, for every request, login and signedness of `char`; the token `%%` is passed
through `ap_escape_urlencoded` like the other substitutions, so the result is not the
`100% done` the claim states. -/
theorem format_location_percent_percent_escaped (signedChar : Bool) (r : request_rec)
    (login : Option CString) :
    format_location signedChar r (ascii "100%% done") login = some (ascii "100%25 done") ∧
    format_location signedChar r (ascii "100%% done") login ≠ some (ascii "100% done") := by
  have h := format_location_double_percent signedChar r login (ascii "100") (ascii " done")
    (by decide) (by decide) (by decide) (by decide)
  have e1 : ascii "100%% done" = ascii "100" ++ [37, 37] ++ ascii " done" := by decide
  have e2 : ascii "100%25 done" = ascii "100" ++ [37, 50, 53] ++ ascii " done" := by decide
  rw [e1, e2, h]
  exact ⟨rfl, by decide⟩

/-- C6: a template that contains no `%` (and, being a C string, no NUL) is returned unchanged,
for every request and login; the empty template included. -/
theorem format_location_no_percent (signedChar : Bool) (r : request_rec)
    (login : Option CString) (template : CString) (hpercent : 37 ∉ template)
    (hnul : 0 ∉ template) :
    format_location signedChar r template login = some template := by
  induction template with
  | nil => exact format_location_nil signedChar r login
  | cons c rest ih =>
    have hc0 : c ≠ 0 := fun e => hnul (by simp [e])
    have hc37 : c ≠ 37 := fun e => hpercent (by simp [e])
    have hr37 : 37 ∉ rest := fun e => hpercent (by simp [e])
    have hr0 : 0 ∉ rest := fun e => hnul (by simp [e])
    have hA : format_location_append r login c (rest.headD 0) = none :=
      format_location_append_of_ne r login c _ hc37
    rw [format_location_literal signedChar r login c rest hc0 hA, ih hr37 hr0]
    rfl

theorem format_location_no_percent_witness :
    (37 ∉ ascii "https://host/renew" ∧ 0 ∉ ascii "https://host/renew" ∧
      format_location true request_with_redirect (ascii "https://host/renew") (some (ascii "bob"))
        = some (ascii "https://host/renew")) ∧
    format_location true request_with_redirect [] (some (ascii "bob")) = some [] :=
  ⟨⟨by decide, by decide,
    format_location_no_percent true request_with_redirect (some (ascii "bob"))
      (ascii "https://host/renew") (by decide) (by decide)⟩,
   format_location_no_percent true request_with_redirect (some (ascii "bob")) []
      (by decide) (by decide)⟩

/-- C7: when every `%` of the template is its last character or is followed by a character
other than `%`, `s` and `u`, the template is returned unchanged, with nothing escaped. -/
theorem format_location_stray_percent (signedChar : Bool) (r : request_rec)
    (login : Option CString) (template : CString) (hnul : 0 ∉ template)
    (hstray : ∀ i, i < template.length → template.getD i 0 = 37 →
      i + 1 = template.length ∨
        (template.getD (i + 1) 0 ≠ 37 ∧ template.getD (i + 1) 0 ≠ 115 ∧
          template.getD (i + 1) 0 ≠ 117)) :
    format_location signedChar r template login = some template := by
  induction template with
  | nil => exact format_location_nil signedChar r login
  | cons c rest ih =>
    have hc0 : c ≠ 0 := fun e => hnul (by simp [e])
    have hr0 : 0 ∉ rest := fun e => hnul (by simp [e])
    have hrest : ∀ i, i < rest.length → rest.getD i 0 = 37 →
        i + 1 = rest.length ∨
          (rest.getD (i + 1) 0 ≠ 37 ∧ rest.getD (i + 1) 0 ≠ 115 ∧ rest.getD (i + 1) 0 ≠ 117) := by
      intro i hi h37
      have h := hstray (i + 1) (by simpa using hi) (by simpa using h37)
      simpa using h
    have hA : format_location_append r login c (rest.headD 0) = none := by
      by_cases hc : c = 37
      · apply format_location_append_of_next
        have h := hstray 0 (by simp) (by simpa using hc)
        rcases h with h | h
        · have hnil : rest = [] := by
            apply List.length_eq_zero.mp
            simp only [List.length_cons] at h
            omega
          subst hnil
          decide
        · cases rest with
          | nil => decide
          | cons d rest2 => simpa using h
      · exact format_location_append_of_ne r login c _ hc
    rw [format_location_literal signedChar r login c rest hc0 hA, ih hr0 hrest]
    rfl

theorem format_location_stray_percent_witness :
    format_location true request_with_redirect (ascii "abc%") (some (ascii "bob"))
        = some (ascii "abc%") ∧
    format_location true request_with_redirect (ascii "50%x%") none = some (ascii "50%x%") :=
  ⟨format_location_stray_percent true request_with_redirect (some (ascii "bob")) (ascii "abc%")
      (by decide) (by decide),
   format_location_stray_percent true request_with_redirect none (ascii "50%x%")
      (by decide) (by decide)⟩

theorem format_location_append_url (r : request_rec) (login : Option CString)
    (hurl : 0 ∉ r.construct_url) (hargs : ∀ query, r.args = some query → 0 ∉ query) :
    format_location_append r login 37 115 = some (current_url r) := by
  unfold format_location_append current_url
  cases hq : r.args with
  | none => simp
  | some query =>
    have h0 := hargs query hq
    simp [apr_pstrcat, cstr_eq_self hurl, cstr_eq_self h0, cstr]

/-- C5: for a template made of literal text (free of `%`) and the tokens `%u` and `%s`, and a
non-NULL login, the function returns the pieces in their order, each `%u` replaced by
`ap_escape_urlencoded(login)`, each `%s` by `ap_escape_urlencoded` of the current URL followed
by `?` and the query string when there is one, and the literal text copied verbatim. -/
theorem format_location_substitutes (signedChar : Bool) (r : request_rec) (login : CString)
    (escaped_login escaped_url : CString) (pieces : List Piece)
    (hpieces : ∀ p ∈ pieces, p.wellFormed)
    (hurl : 0 ∉ r.construct_url) (hargs : ∀ query, r.args = some query → 0 ∉ query)
    (hlogin : ap_escape_urlencoded signedChar login = some escaped_login)
    (hcurrent : ap_escape_urlencoded signedChar (current_url r) = some escaped_url) :
    format_location signedChar r (pieces.map Piece.template).flatten (some login) =
      some (pieces.map (Piece.output escaped_login escaped_url)).flatten := by
  induction pieces with
  | nil => exact format_location_nil signedChar r (some login)
  | cons p ps ih =>
    have hps : ∀ q ∈ ps, q.wellFormed := fun q hq => hpieces q (List.mem_cons_of_mem p hq)
    have hp : p.wellFormed := hpieces p (List.mem_cons_self p ps)
    simp only [List.map_cons, List.flatten_cons]
    cases p with
    | literal text =>
      simp only [Piece.wellFormed] at hp
      simp only [Piece.template, Piece.output]
      rw [format_location_plain_append signedChar r (some login) _ text hp.1 hp.2, ih hps]
      rfl
    | login =>
      have hA : format_location_append r (some login) 37 117 = some login := by
        simp [format_location_append]
      simp only [Piece.template, Piece.output, List.cons_append, List.nil_append]
      rw [format_location_token signedChar r (some login) 37 117 _ login escaped_login
        (by decide) hA hlogin, ih hps]
      rfl
    | url =>
      simp only [Piece.template, Piece.output, List.cons_append, List.nil_append]
      rw [format_location_token signedChar r (some login) 37 115 _ (current_url r) escaped_url
        (by decide) (format_location_append_url r (some login) hurl hargs) hcurrent, ih hps]
      rfl

theorem format_location_substitutes_witness :
    format_location true request_with_redirect (ascii "https://x/login?u=%u&r=%s")
        (some (ascii "bob")) =
      some (ascii "https://x/login?u=" ++ ascii "bob" ++ ascii "&r=" ++
        ascii "https%3a%2f%2fhost%2fa%3fq%3d1") ∧
    ap_escape_urlencoded true (ascii "bob") = some (ascii "bob") ∧
    ap_escape_urlencoded true (ascii "https://host/a?q=1") =
      some (ascii "https%3a%2f%2fhost%2fa%3fq%3d1") :=
  ⟨format_location_substitutes true request_with_redirect (ascii "bob") (ascii "bob")
      (ascii "https%3a%2f%2fhost%2fa%3fq%3d1")
      [Piece.literal (ascii "https://x/login?u="), Piece.login, Piece.literal (ascii "&r="),
        Piece.url]
      (by decide) (by decide) (by decide) (by decide) (by decide),
   by decide, by decide⟩

/-! ## Tables -/

theorem key_eq_self (k : String) : key_eq k k = true := by
  simp [key_eq]

theorem apr_table_get_setn (t : apr_table_t) (key : String) (val : Option CString) :
    apr_table_get (apr_table_setn t key val) key = val := by
  induction t with
  | nil => simp [apr_table_setn, apr_table_get, key_eq_self]
  | cons e rest ih =>
    obtain ⟨k, v⟩ := e
    by_cases hk : key_eq k key = true
    · simp [apr_table_setn, apr_table_get, hk]
    · simp [apr_table_setn, apr_table_get, hk, ih]

/-! ## Claims on `pam_authenticate_with_login_password` -/

theorem step_all_auth : _PAM_STEP_ALL &&& _PAM_STEP_AUTH ≠ 0 := by decide

theorem step_all_account : _PAM_STEP_ALL &&& _PAM_STEP_ACCOUNT ≠ 0 := by decide

/-- C2 (the code departs from the claim): when account validation reports
`PAM_NEW_AUTHTOK_REQD` and a redirect URL is configured, the call returns `AUTH_DENIED` from
inside the block and the events of the call hold no `pam_end` at all. -/
theorem pam_end_skipped_on_redirect :
    (pam_authenticate_with_login_password stubs_expired request_with_redirect (ascii "webapp")
        (some (ascii "bob")) (some (ascii "secret")) _PAM_STEP_ALL).map
      (fun o => (o.result, pam_end_calls o.events, o.events)) =
    some (authn_status.AUTH_DENIED, 0,
      [Event.pam_start (ascii "webapp") (some (ascii "bob")) (some (ascii "secret")),
       Event.pam_set_item_rhost (ascii "192.0.2.1"),
       Event.pam_authenticate,
       Event.pam_acct_mgmt,
       Event.ap_log_rerror LogLevel.APLOG_ERR "PAM_NEW_AUTHTOK_REQD: redirect to [%s] using [%d]"
         [LogArg.str (some (ascii "https://host/renew?u=%u")), LogArg.int 307],
       Event.ap_send_error_response]) := by
  decide

theorem pam_end_calls_append (a b : List Event) :
    pam_end_calls (a ++ b) = pam_end_calls a + pam_end_calls b := by
  simp [pam_end_calls]

theorem quiet_append {a b : List Event} (ha : quiet a) (hb : quiet b) : quiet (a ++ b) := by
  unfold quiet at *
  rw [pam_end_calls_append]
  simp [ha.1, hb.1, ha.2, hb.2]

theorem store_password_to_cache_quiet (st : Stubs) (login password : Option CString) :
    quiet (store_password_to_cache st login password) := by
  unfold store_password_to_cache quiet
  split
  · split
    · simp [pam_end_calls, Event.isPamEnd]
    · split <;> simp [pam_end_calls, Event.isPamEnd]
  · simp [pam_end_calls]

theorem pam_open_quiet (st : Stubs) (pam_service : CString) (login password : Option CString) :
    quiet (pam_open st pam_service login password).events := by
  unfold pam_open quiet
  by_cases h : st.pam_start = PAM_SUCCESS
  · cases hh : st.remote_host_or_ip <;> simp [h, pam_end_calls, Event.isPamEnd]
  · simp [h, pam_end_calls, Event.isPamEnd]

theorem pam_step_authenticate_quiet (st : Stubs) (login : Option CString) (steps : Nat)
    (l : Locals) (hl : quiet l.events) : quiet (pam_step_authenticate st login steps l).events := by
  unfold pam_step_authenticate
  split
  · exact quiet_append hl (by simp [quiet, pam_end_calls, Event.isPamEnd])
  · exact hl

theorem pam_step_account_quiet (st : Stubs) (r : request_rec) (login : Option CString)
    (steps : Nat) (l : Locals) (hl : quiet l.events) (x : Outcome ⊕ Locals)
    (h : pam_step_account st r login steps l = some x) :
    (∀ o, x = Sum.inl o →
      pam_end_calls o.events = 0 ∧ Event.ap_send_error_response ∈ o.events) ∧
    (∀ l1, x = Sum.inr l1 → quiet l1.events) := by
  have h2 : quiet (l.events ++ [Event.pam_acct_mgmt]) :=
    quiet_append hl (by simp [quiet, pam_end_calls, Event.isPamEnd])
  unfold pam_step_account at h
  by_cases hc : l.ret = PAM_SUCCESS ∧ steps &&& _PAM_STEP_ACCOUNT ≠ 0
  · rw [if_pos hc] at h
    simp only at h
    by_cases he : st.pam_acct_mgmt = PAM_NEW_AUTHTOK_REQD
    · rw [if_pos he] at h
      cases hconf : r.module_config with
      | none =>
        simp only [hconf, Option.some.injEq] at h
        subst h
        simp [h2]
      | some conf =>
        cases hurl : conf.expired_redirect_url with
        | none =>
          simp only [hconf, hurl, Option.some.injEq] at h
          subst h
          simp [h2]
        | some url =>
          simp only [hconf, hurl, pam_expired_redirect, Option.map_map, Option.map_eq_some'] at h
          obtain ⟨loc, _, rfl⟩ := h
          simp only [Function.comp, Sum.inl.injEq, reduceCtorEq, false_implies, implies_true,
            and_true]
          intro o ho
          subst ho
          refine ⟨?_, by simp⟩
          rw [pam_end_calls_append, h2.1]
          simp [pam_end_calls, Event.isPamEnd]
    · rw [if_neg he] at h
      simp only [Option.some.injEq] at h
      subst h
      simp [h2]
  · rw [if_neg hc] at h
    simp only [Option.some.injEq] at h
    subst h
    simp [hl]

theorem pam_conclude_pam_end (st : Stubs) (r : request_rec) (login password : Option CString)
    (steps : Nat) (pamh : Bool) (l : Locals) (hl : quiet l.events) :
    pam_end_calls (pam_conclude st r login password steps pamh l).events = 1 ∧
    Event.ap_send_error_response ∉ (pam_conclude st r login password steps pamh l).events := by
  have hq : quiet (Event.store_password_to_cache login password ::
      store_password_to_cache st login password) :=
    quiet_append (a := [Event.store_password_to_cache login password])
      (by simp [quiet, pam_end_calls, Event.isPamEnd])
      (store_password_to_cache_quiet st login password)
  unfold pam_conclude
  by_cases hr : l.ret ≠ PAM_SUCCESS
  · rw [if_pos hr]
    simp only [pam_end_calls_append, hl.1]
    refine ⟨by simp [pam_end_calls, Event.isPamEnd], ?_⟩
    simp [hl.2]
  · by_cases hs : steps &&& _PAM_STEP_AUTH ≠ 0
    · rw [if_neg hr, if_pos hs]
      simp only [pam_end_calls_append, hl.1, hq.1]
      refine ⟨by simp [pam_end_calls, Event.isPamEnd], ?_⟩
      simp [hl.2, hq.2]
    · rw [if_neg hr, if_neg hs]
      simp only [pam_end_calls_append, hl.1]
      refine ⟨by simp [pam_end_calls, Event.isPamEnd], ?_⟩
      simp [hl.2]

/-- Every path but the redirect calls `pam_end` once; the redirect, which is the only path that
calls `ap_send_error_response`, does not call it. -/
theorem pam_end_calls_eq (st : Stubs) (r : request_rec) (pam_service : CString)
    (login password : Option CString) (steps : Nat) (o : Outcome)
    (h : pam_authenticate_with_login_password st r pam_service login password steps = some o) :
    pam_end_calls o.events = if Event.ap_send_error_response ∈ o.events then 0 else 1 := by
  unfold pam_authenticate_with_login_password at h
  simp only [Option.map_eq_some'] at h
  obtain ⟨x, hx, rfl⟩ := h
  have ho := pam_open_quiet st pam_service login password
  have hs : (∀ o, x = Sum.inl o →
      pam_end_calls o.events = 0 ∧ Event.ap_send_error_response ∈ o.events) ∧
      (∀ l1, x = Sum.inr l1 → quiet l1.events) := by
    unfold pam_steps at hx
    by_cases hr : (pam_open st pam_service login password).ret = PAM_SUCCESS
    · rw [if_pos hr] at hx
      exact pam_step_account_quiet st r login steps _
        (pam_step_authenticate_quiet st login steps _ ho) x hx
    · rw [if_neg hr] at hx
      simp only [Option.some.injEq] at hx
      subst hx
      simp [ho]
  cases x with
  | inl early =>
    have h1 := hs.1 early rfl
    simp [h1.1, h1.2]
  | inr l =>
    have hc := pam_conclude_pam_end st r login password steps
      (decide (st.pam_start = PAM_SUCCESS)) l (hs.2 l rfl)
    simp [hc.1, hc.2]
/-! ### The paths through the steps -/

theorem pam_open_ret (st : Stubs) (pam_service : CString) (login password : Option CString) :
    (pam_open st pam_service login password).ret =
      if st.pam_start = PAM_SUCCESS then
        (match st.remote_host_or_ip with
         | some _ => st.pam_set_item
         | none => st.pam_start)
      else st.pam_start := by
  unfold pam_open
  by_cases h : st.pam_start = PAM_SUCCESS
  · cases hh : st.remote_host_or_ip <;> simp [h]
  · simp [h]

theorem pam_open_ret_success (st : Stubs) (pam_service : CString) (login password : Option CString)
    (hstart : st.pam_start = PAM_SUCCESS)
    (hitem : st.remote_host_or_ip = none ∨ st.pam_set_item = PAM_SUCCESS) :
    (pam_open st pam_service login password).ret = PAM_SUCCESS := by
  rw [pam_open_ret, if_pos hstart]
  cases hh : st.remote_host_or_ip with
  | none => simpa using hstart
  | some host =>
    rcases hitem with h | h
    · simp [hh] at h
    · simpa using h

theorem pam_step_authenticate_ret (st : Stubs) (login : Option CString) (steps : Nat)
    (l : Locals) :
    (pam_step_authenticate st login steps l).ret =
      if steps &&& _PAM_STEP_AUTH ≠ 0 then st.pam_authenticate else l.ret := by
  unfold pam_step_authenticate
  split <;> rfl

theorem pam_step_account_skip (st : Stubs) (r : request_rec) (login : Option CString)
    (steps : Nat) (l : Locals) (h : ¬ (l.ret = PAM_SUCCESS ∧ steps &&& _PAM_STEP_ACCOUNT ≠ 0)) :
    pam_step_account st r login steps l = some (Sum.inr l) := by
  unfold pam_step_account
  rw [if_neg h]

theorem pam_step_account_run (st : Stubs) (r : request_rec) (login : Option CString)
    (steps : Nat) (l : Locals) (h : l.ret = PAM_SUCCESS ∧ steps &&& _PAM_STEP_ACCOUNT ≠ 0)
    (hno : st.pam_acct_mgmt = PAM_NEW_AUTHTOK_REQD → expired_redirect_url r = none) :
    pam_step_account st r login steps l =
      some (Sum.inr
        { l with param := login
                 stage := "PAM account validation failed for user"
                 ret := st.pam_acct_mgmt
                 events := l.events ++ [Event.pam_acct_mgmt] }) := by
  unfold pam_step_account
  rw [if_pos h]
  simp only
  by_cases he : st.pam_acct_mgmt = PAM_NEW_AUTHTOK_REQD
  · rw [if_pos he]
    have hu := hno he
    unfold expired_redirect_url at hu
    cases hconf : r.module_config with
    | none => rfl
    | some conf =>
      cases hurl : conf.expired_redirect_url with
      | none => simp only [hurl]
      | some url => simp [hconf, hurl] at hu
  · rw [if_neg he]

theorem pam_step_account_redirect (st : Stubs) (r : request_rec) (login : Option CString)
    (steps : Nat) (l : Locals) (conf : authnz_pam_config_rec) (url : CString)
    (h : l.ret = PAM_SUCCESS ∧ steps &&& _PAM_STEP_ACCOUNT ≠ 0)
    (he : st.pam_acct_mgmt = PAM_NEW_AUTHTOK_REQD)
    (hconf : r.module_config = some conf) (hurl : conf.expired_redirect_url = some url) :
    pam_step_account st r login steps l =
      (pam_expired_redirect st r login conf url
        { l with param := login
                 stage := "PAM account validation failed for user"
                 ret := st.pam_acct_mgmt
                 events := l.events ++ [Event.pam_acct_mgmt] }).map Sum.inl := by
  unfold pam_step_account
  rw [if_pos h]
  simp only
  rw [if_pos he]
  simp only [hconf, hurl]

theorem pam_step_account_inl (st : Stubs) (r : request_rec) (login : Option CString)
    (steps : Nat) (l : Locals) (o : Outcome)
    (h : pam_step_account st r login steps l = some (Sum.inl o)) :
    o.result = authn_status.AUTH_DENIED := by
  by_cases hc : l.ret = PAM_SUCCESS ∧ steps &&& _PAM_STEP_ACCOUNT ≠ 0
  · by_cases hno : st.pam_acct_mgmt = PAM_NEW_AUTHTOK_REQD → expired_redirect_url r = none
    · rw [pam_step_account_run st r login steps l hc hno] at h
      simp at h
    · have he : st.pam_acct_mgmt = PAM_NEW_AUTHTOK_REQD := by
        by_contra hne
        exact hno (fun e => absurd e hne)
      cases hconf : r.module_config with
      | none => exact absurd (fun _ => by simp [expired_redirect_url, hconf]) hno
      | some conf =>
        cases hurl : conf.expired_redirect_url with
        | none => exact absurd (fun _ => by simp [expired_redirect_url, hconf, hurl]) hno
        | some url =>
          rw [pam_step_account_redirect st r login steps l conf url hc he hconf hurl] at h
          simp only [pam_expired_redirect, Option.map_map, Option.map_eq_some',
            Function.comp, Sum.inl.injEq] at h
          obtain ⟨loc, _, rfl⟩ := h
          rfl
  · rw [pam_step_account_skip st r login steps l hc] at h
    simp at h

theorem pam_step_account_inr_ret (st : Stubs) (r : request_rec) (login : Option CString)
    (steps : Nat) (l l1 : Locals)
    (h : pam_step_account st r login steps l = some (Sum.inr l1)) :
    l1.ret = if l.ret = PAM_SUCCESS ∧ steps &&& _PAM_STEP_ACCOUNT ≠ 0 then st.pam_acct_mgmt
      else l.ret := by
  by_cases hc : l.ret = PAM_SUCCESS ∧ steps &&& _PAM_STEP_ACCOUNT ≠ 0
  · rw [if_pos hc]
    by_cases hno : st.pam_acct_mgmt = PAM_NEW_AUTHTOK_REQD → expired_redirect_url r = none
    · rw [pam_step_account_run st r login steps l hc hno] at h
      simp only [Option.some.injEq, Sum.inr.injEq] at h
      rw [← h]
    · have he : st.pam_acct_mgmt = PAM_NEW_AUTHTOK_REQD := by
        by_contra hne
        exact hno (fun e => absurd e hne)
      cases hconf : r.module_config with
      | none => exact absurd (fun _ => by simp [expired_redirect_url, hconf]) hno
      | some conf =>
        cases hurl : conf.expired_redirect_url with
        | none => exact absurd (fun _ => by simp [expired_redirect_url, hconf, hurl]) hno
        | some url =>
          rw [pam_step_account_redirect st r login steps l conf url hc he hconf hurl] at h
          simp at h
  · rw [if_neg hc]
    rw [pam_step_account_skip st r login steps l hc] at h
    simp only [Option.some.injEq, Sum.inr.injEq] at h
    rw [← h]

theorem pam_conclude_denied (st : Stubs) (r : request_rec) (login password : Option CString)
    (steps : Nat) (pamh : Bool) (l : Locals) (h : l.ret ≠ PAM_SUCCESS) :
    (pam_conclude st r login password steps pamh l).result = authn_status.AUTH_DENIED ∧
    (pam_conclude st r login password steps pamh l).r =
      { r with subprocess_env := apr_table_setn r.subprocess_env "EXTERNAL_AUTH_ERROR"
                 (apr_pstrdup (some (st.pam_strerror l.ret))) } := by
  unfold pam_conclude
  rw [if_pos h]
  exact ⟨rfl, rfl⟩

theorem pam_conclude_granted (st : Stubs) (r : request_rec) (login password : Option CString)
    (steps : Nat) (pamh : Bool) (l : Locals) (h : l.ret = PAM_SUCCESS) :
    (pam_conclude st r login password steps pamh l).result = authn_status.AUTH_GRANTED ∧
    (pam_conclude st r login password steps pamh l).r =
      { r with subprocess_env := apr_table_setn r.subprocess_env "REMOTE_USER" login
               user := apr_pstrdup login } := by
  unfold pam_conclude
  rw [if_neg (not_not.mpr h)]
  exact ⟨rfl, rfl⟩

/-- A grant means that the session was opened and that every requested step succeeded. -/
theorem pam_granted_only_if (st : Stubs) (r : request_rec) (pam_service : CString)
    (login password : Option CString) (steps : Nat) (o : Outcome)
    (h : pam_authenticate_with_login_password st r pam_service login password steps = some o)
    (hg : o.result = authn_status.AUTH_GRANTED) :
    st.pam_start = PAM_SUCCESS ∧
    (steps &&& _PAM_STEP_AUTH ≠ 0 → st.pam_authenticate = PAM_SUCCESS) ∧
    (steps &&& _PAM_STEP_ACCOUNT ≠ 0 → st.pam_acct_mgmt = PAM_SUCCESS) := by
  unfold pam_authenticate_with_login_password at h
  simp only [Option.map_eq_some'] at h
  obtain ⟨x, hx, rfl⟩ := h
  cases x with
  | inl early =>
    exfalso
    unfold pam_steps at hx
    by_cases hr : (pam_open st pam_service login password).ret = PAM_SUCCESS
    · rw [if_pos hr] at hx
      have hd := pam_step_account_inl st r login steps _ early hx
      simp only at hg
      rw [hd] at hg
      cases hg
    · rw [if_neg hr] at hx
      simp at hx
  | inr l =>
    simp only at hg
    have hl : l.ret = PAM_SUCCESS := by
      by_contra hne
      rw [(pam_conclude_denied st r login password steps _ l hne).1] at hg
      cases hg
    unfold pam_steps at hx
    by_cases hr : (pam_open st pam_service login password).ret = PAM_SUCCESS
    · rw [if_pos hr] at hx
      have hret := pam_step_account_inr_ret st r login steps _ l hx
      rw [hl, pam_step_authenticate_ret, hr] at hret
      have hstart : st.pam_start = PAM_SUCCESS := by
        by_contra hne
        rw [pam_open_ret, if_neg hne] at hr
        exact hne hr
      refine ⟨hstart, ?_, ?_⟩
      · intro ha
        rw [if_pos ha] at hret
        by_cases hc : st.pam_authenticate = PAM_SUCCESS ∧ steps &&& _PAM_STEP_ACCOUNT ≠ 0
        · exact hc.1
        · rw [if_neg hc] at hret
          exact hret.symm
      · intro hacc
        by_cases ha : steps &&& _PAM_STEP_AUTH ≠ 0
        · rw [if_pos ha] at hret
          by_cases hc : st.pam_authenticate = PAM_SUCCESS ∧ steps &&& _PAM_STEP_ACCOUNT ≠ 0
          · rw [if_pos hc] at hret
            exact hret.symm
          · rw [if_neg hc] at hret
            exact absurd ⟨hret.symm, hacc⟩ hc
        · rw [if_neg ha, if_pos ⟨rfl, hacc⟩] at hret
          exact hret.symm
    · rw [if_neg hr] at hx
      simp only [Option.some.injEq, Sum.inr.injEq] at hx
      rw [hx] at hr
      exact absurd hl hr
theorem pam_run_auth_fail (st : Stubs) (r : request_rec) (pam_service : CString)
    (login password : Option CString) (steps : Nat)
    (hopen : (pam_open st pam_service login password).ret = PAM_SUCCESS)
    (hstep : steps &&& _PAM_STEP_AUTH ≠ 0) (hfail : st.pam_authenticate ≠ PAM_SUCCESS) :
    ∃ l, pam_authenticate_with_login_password st r pam_service login password steps =
        some (pam_conclude st r login password steps (decide (st.pam_start = PAM_SUCCESS)) l) ∧
      l.ret = st.pam_authenticate := by
  refine ⟨pam_step_authenticate st login steps (pam_open st pam_service login password), ?_, ?_⟩
  · unfold pam_authenticate_with_login_password pam_steps
    rw [if_pos hopen, pam_step_account_skip]
    · rfl
    · rw [pam_step_authenticate_ret, if_pos hstep]
      exact fun h => hfail h.1
  · rw [pam_step_authenticate_ret, if_pos hstep]

theorem pam_run_account (st : Stubs) (r : request_rec) (pam_service : CString)
    (login password : Option CString) (steps : Nat)
    (hopen : (pam_open st pam_service login password).ret = PAM_SUCCESS)
    (hauth : steps &&& _PAM_STEP_AUTH ≠ 0 → st.pam_authenticate = PAM_SUCCESS)
    (hstep : steps &&& _PAM_STEP_ACCOUNT ≠ 0)
    (hno : st.pam_acct_mgmt = PAM_NEW_AUTHTOK_REQD → expired_redirect_url r = none) :
    ∃ l, pam_authenticate_with_login_password st r pam_service login password steps =
        some (pam_conclude st r login password steps (decide (st.pam_start = PAM_SUCCESS)) l) ∧
      l.ret = st.pam_acct_mgmt := by
  have h1 : (pam_step_authenticate st login steps (pam_open st pam_service login password)).ret
      = PAM_SUCCESS := by
    rw [pam_step_authenticate_ret]
    by_cases ha : steps &&& _PAM_STEP_AUTH ≠ 0
    · rw [if_pos ha]; exact hauth ha
    · rw [if_neg ha]; exact hopen
  unfold pam_authenticate_with_login_password pam_steps
  rw [if_pos hopen, pam_step_account_run st r login steps _ ⟨h1, hstep⟩ hno]
  exact ⟨_, rfl, rfl⟩

theorem pam_run_redirect (st : Stubs) (r : request_rec) (pam_service : CString)
    (login password : Option CString) (steps : Nat) (conf : authnz_pam_config_rec)
    (url location : CString)
    (hopen : (pam_open st pam_service login password).ret = PAM_SUCCESS)
    (hauth : steps &&& _PAM_STEP_AUTH ≠ 0 → st.pam_authenticate = PAM_SUCCESS)
    (hstep : steps &&& _PAM_STEP_ACCOUNT ≠ 0)
    (he : st.pam_acct_mgmt = PAM_NEW_AUTHTOK_REQD)
    (hconf : r.module_config = some conf) (hurl : conf.expired_redirect_url = some url)
    (hloc : format_location st.signedChar r url login = some location) :
    ∃ o, pam_authenticate_with_login_password st r pam_service login password steps = some o ∧
      o.result = authn_status.AUTH_DENIED ∧
      o.r = { r with headers_out := apr_table_addn r.headers_out "Location" (some location)
                     status := conf.expired_redirect_status } ∧
      pam_end_calls o.events = 0 := by
  have h1 : (pam_step_authenticate st login steps (pam_open st pam_service login password)).ret
      = PAM_SUCCESS := by
    rw [pam_step_authenticate_ret]
    by_cases ha : steps &&& _PAM_STEP_AUTH ≠ 0
    · rw [if_pos ha]; exact hauth ha
    · rw [if_neg ha]; exact hopen
  have hq : quiet (pam_step_authenticate st login steps
      (pam_open st pam_service login password)).events :=
    pam_step_authenticate_quiet st login steps _ (pam_open_quiet st pam_service login password)
  unfold pam_authenticate_with_login_password pam_steps
  rw [if_pos hopen, pam_step_account_redirect st r login steps _ conf url ⟨h1, hstep⟩ he hconf
    hurl]
  unfold pam_expired_redirect
  rw [hloc]
  refine ⟨_, rfl, rfl, rfl, ?_⟩
  simp only [pam_end_calls_append, hq.1]
  simp [pam_end_calls, Event.isPamEnd]

/-- C3: with both steps requested the call returns `AUTH_GRANTED` only if `pam_start`,
`pam_authenticate` and `pam_acct_mgmt` all report success; when the session is opened and
`pam_authenticate` reports a failure, or `pam_authenticate` succeeds and `pam_acct_mgmt` reports
a failure for which no expiry redirect fires, the call returns `AUTH_DENIED` and
`EXTERNAL_AUTH_ERROR` holds a copy of the error string of that code. -/
theorem pam_all_steps_verdict (st : Stubs) (r : request_rec) (pam_service : CString)
    (login password : Option CString) :
    (∀ o, pam_authenticate_with_login_password st r pam_service login password _PAM_STEP_ALL
          = some o →
        o.result = authn_status.AUTH_GRANTED →
        st.pam_start = PAM_SUCCESS ∧ st.pam_authenticate = PAM_SUCCESS ∧
          st.pam_acct_mgmt = PAM_SUCCESS) ∧
    (st.pam_start = PAM_SUCCESS →
      (st.remote_host_or_ip = none ∨ st.pam_set_item = PAM_SUCCESS) →
      st.pam_authenticate ≠ PAM_SUCCESS →
      ∃ o, pam_authenticate_with_login_password st r pam_service login password _PAM_STEP_ALL
          = some o ∧
        o.result = authn_status.AUTH_DENIED ∧
        apr_table_get o.r.subprocess_env "EXTERNAL_AUTH_ERROR" =
          apr_pstrdup (some (st.pam_strerror st.pam_authenticate))) ∧
    (st.pam_start = PAM_SUCCESS →
      (st.remote_host_or_ip = none ∨ st.pam_set_item = PAM_SUCCESS) →
      st.pam_authenticate = PAM_SUCCESS →
      st.pam_acct_mgmt ≠ PAM_SUCCESS →
      (st.pam_acct_mgmt = PAM_NEW_AUTHTOK_REQD → expired_redirect_url r = none) →
      ∃ o, pam_authenticate_with_login_password st r pam_service login password _PAM_STEP_ALL
          = some o ∧
        o.result = authn_status.AUTH_DENIED ∧
        apr_table_get o.r.subprocess_env "EXTERNAL_AUTH_ERROR" =
          apr_pstrdup (some (st.pam_strerror st.pam_acct_mgmt))) := by
  refine ⟨?_, ?_, ?_⟩
  · intro o h hg
    have hh := pam_granted_only_if st r pam_service login password _PAM_STEP_ALL o h hg
    exact ⟨hh.1, hh.2.1 step_all_auth, hh.2.2 step_all_account⟩
  · intro hstart hitem hfail
    obtain ⟨l, hrun, hret⟩ := pam_run_auth_fail st r pam_service login password _PAM_STEP_ALL
      (pam_open_ret_success st pam_service login password hstart hitem) step_all_auth hfail
    have hd := pam_conclude_denied st r login password _PAM_STEP_ALL
      (decide (st.pam_start = PAM_SUCCESS)) l (by rw [hret]; exact hfail)
    refine ⟨_, hrun, hd.1, ?_⟩
    rw [hd.2, hret]
    exact apr_table_get_setn _ _ _
  · intro hstart hitem hauth hfail hno
    obtain ⟨l, hrun, hret⟩ := pam_run_account st r pam_service login password _PAM_STEP_ALL
      (pam_open_ret_success st pam_service login password hstart hitem) (fun _ => hauth)
      step_all_account hno
    have hd := pam_conclude_denied st r login password _PAM_STEP_ALL
      (decide (st.pam_start = PAM_SUCCESS)) l (by rw [hret]; exact hfail)
    refine ⟨_, hrun, hd.1, ?_⟩
    rw [hd.2, hret]
    exact apr_table_get_setn _ _ _

theorem pam_all_steps_verdict_witness :
    (∃ o, pam_authenticate_with_login_password stubs_success request_with_redirect
          (ascii "webapp") (some (ascii "bob")) (some (ascii "secret")) _PAM_STEP_ALL = some o ∧
        o.result = authn_status.AUTH_GRANTED) ∧
    (stubs_success.pam_start = PAM_SUCCESS ∧ stubs_success.pam_authenticate = PAM_SUCCESS ∧
      stubs_success.pam_acct_mgmt = PAM_SUCCESS) ∧
    (∃ o, pam_authenticate_with_login_password stubs_auth_err request_with_redirect
          (ascii "webapp") (some (ascii "bob")) (some (ascii "wrong")) _PAM_STEP_ALL = some o ∧
        o.result = authn_status.AUTH_DENIED ∧
        apr_table_get o.r.subprocess_env "EXTERNAL_AUTH_ERROR" =
          some (ascii "Authentication failure")) ∧
    (∃ o, pam_authenticate_with_login_password stubs_acct_expired request_with_redirect
          (ascii "webapp") (some (ascii "bob")) (some (ascii "secret")) _PAM_STEP_ALL = some o ∧
        o.result = authn_status.AUTH_DENIED ∧
        apr_table_get o.r.subprocess_env "EXTERNAL_AUTH_ERROR" =
          some (ascii "User account has expired")) := by
  have hg : (pam_authenticate_with_login_password stubs_success request_with_redirect
      (ascii "webapp") (some (ascii "bob")) (some (ascii "secret")) _PAM_STEP_ALL).map
        Outcome.result = some authn_status.AUTH_GRANTED := by decide
  obtain ⟨o, ho, hres⟩ := Option.map_eq_some'.mp hg
  exact ⟨⟨o, ho, hres⟩,
    (pam_all_steps_verdict stubs_success request_with_redirect (ascii "webapp")
      (some (ascii "bob")) (some (ascii "secret"))).1 o ho hres,
    (pam_all_steps_verdict stubs_auth_err request_with_redirect (ascii "webapp")
      (some (ascii "bob")) (some (ascii "wrong"))).2.1 (by decide) (by decide) (by decide),
    (pam_all_steps_verdict stubs_acct_expired request_with_redirect (ascii "webapp")
      (some (ascii "bob")) (some (ascii "secret"))).2.2 (by decide) (by decide) (by decide)
      (by decide) (by decide)⟩

/-- C4: when the session is opened, the steps before account validation succeed, and account
validation reports `PAM_NEW_AUTHTOK_REQD`: with a redirect URL configured the call adds a
`Location` header equal to `format_location(r, url, login)`, sets the status to the configured
redirect status and leaves `EXTERNAL_AUTH_ERROR` alone; with no redirect URL configured it is
the plain denial, with the diagnostic recorded and the headers and the status unchanged. -/
theorem pam_expired_credentials (st : Stubs) (r : request_rec) (pam_service : CString)
    (login password : Option CString) (steps : Nat)
    (hstart : st.pam_start = PAM_SUCCESS)
    (hitem : st.remote_host_or_ip = none ∨ st.pam_set_item = PAM_SUCCESS)
    (hauth : steps &&& _PAM_STEP_AUTH ≠ 0 → st.pam_authenticate = PAM_SUCCESS)
    (hstep : steps &&& _PAM_STEP_ACCOUNT ≠ 0)
    (hexpired : st.pam_acct_mgmt = PAM_NEW_AUTHTOK_REQD) :
    (∀ conf url location, r.module_config = some conf → conf.expired_redirect_url = some url →
      format_location st.signedChar r url login = some location →
      ∃ o, pam_authenticate_with_login_password st r pam_service login password steps = some o ∧
        o.result = authn_status.AUTH_DENIED ∧
        o.r.headers_out = apr_table_addn r.headers_out "Location" (some location) ∧
        o.r.status = conf.expired_redirect_status ∧
        o.r.subprocess_env = r.subprocess_env) ∧
    (expired_redirect_url r = none →
      ∃ o, pam_authenticate_with_login_password st r pam_service login password steps = some o ∧
        o.result = authn_status.AUTH_DENIED ∧
        apr_table_get o.r.subprocess_env "EXTERNAL_AUTH_ERROR" =
          apr_pstrdup (some (st.pam_strerror PAM_NEW_AUTHTOK_REQD)) ∧
        o.r.headers_out = r.headers_out ∧
        o.r.status = r.status) := by
  have hopen := pam_open_ret_success st pam_service login password hstart hitem
  constructor
  · intro conf url location hconf hurl hloc
    obtain ⟨o, hrun, hres, hr, _⟩ := pam_run_redirect st r pam_service login password steps conf
      url location hopen hauth hstep hexpired hconf hurl hloc
    exact ⟨o, hrun, hres, by rw [hr], by rw [hr], by rw [hr]⟩
  · intro hno
    obtain ⟨l, hrun, hret⟩ := pam_run_account st r pam_service login password steps hopen hauth
      hstep (fun _ => hno)
    have hne : l.ret ≠ PAM_SUCCESS := by
      rw [hret, hexpired]
      decide
    have hd := pam_conclude_denied st r login password steps
      (decide (st.pam_start = PAM_SUCCESS)) l hne
    refine ⟨_, hrun, hd.1, ?_, by rw [hd.2], by rw [hd.2]⟩
    rw [hd.2, hret, hexpired]
    exact apr_table_get_setn _ _ _

theorem pam_expired_credentials_witness :
    (∃ o, pam_authenticate_with_login_password stubs_expired request_with_redirect
          (ascii "webapp") (some (ascii "bob")) (some (ascii "secret")) _PAM_STEP_ALL = some o ∧
        o.result = authn_status.AUTH_DENIED ∧
        o.r.headers_out = [("Location", some (ascii "https://host/renew?u=bob"))] ∧
        o.r.status = 307 ∧
        o.r.subprocess_env = []) ∧
    (∃ o, pam_authenticate_with_login_password stubs_expired request_without_redirect
          (ascii "webapp") (some (ascii "bob")) (some (ascii "secret")) _PAM_STEP_ALL = some o ∧
        o.result = authn_status.AUTH_DENIED ∧
        apr_table_get o.r.subprocess_env "EXTERNAL_AUTH_ERROR" =
          some (ascii "Authentication token is no longer valid; new one required") ∧
        o.r.headers_out = [] ∧
        o.r.status = 200) :=
  ⟨(pam_expired_credentials stubs_expired request_with_redirect (ascii "webapp")
      (some (ascii "bob")) (some (ascii "secret")) _PAM_STEP_ALL (by decide) (by decide)
      (by decide) (by decide) (by decide)).1
      { pam_service := some (ascii "webapp")
        expired_redirect_url := some (ascii "https://host/renew?u=%u")
        expired_redirect_status := 307 }
      (ascii "https://host/renew?u=%u") (ascii "https://host/renew?u=bob")
      (by decide) (by decide) (by decide),
   (pam_expired_credentials stubs_expired request_without_redirect (ascii "webapp")
      (some (ascii "bob")) (some (ascii "secret")) _PAM_STEP_ALL (by decide) (by decide)
      (by decide) (by decide) (by decide)).2 (by decide)⟩

/-! ## Claims on `pam_authenticate_conv` -/

theorem pam_authenticate_conv_loop_hidden (strdup_ok : Bool) (password : CString) :
    ∀ (msg : List pam_message) (i : Nat) (response : List pam_response),
      (∀ m ∈ msg, m.msg_style = PAM_PROMPT_ECHO_OFF) →
      pam_authenticate_conv_loop strdup_ok password msg i response =
        some (response ++ (List.range' i msg.length).map (fun j =>
          if j = 0 then { resp := strdup strdup_ok password, resp_retcode := 0 }
          else { resp := none, resp_retcode := 0 })) := by
  intro msg
  induction msg with
  | nil => intro i response _; simp [pam_authenticate_conv_loop]
  | cons m rest ih =>
    intro i response h
    have hm : m.msg_style = PAM_PROMPT_ECHO_OFF := h m (List.mem_cons_self m rest)
    have hrest : ∀ x ∈ rest, x.msg_style = PAM_PROMPT_ECHO_OFF :=
      fun x hx => h x (List.mem_cons_of_mem m hx)
    rw [pam_authenticate_conv_loop, if_pos hm]
    simp only
    rw [ih (i + 1) _ hrest]
    simp [List.range'_succ]

theorem pam_authenticate_conv_loop_other (strdup_ok : Bool) (password : CString) :
    ∀ (msg : List pam_message) (i : Nat) (response : List pam_response),
      (∃ m ∈ msg, m.msg_style ≠ PAM_PROMPT_ECHO_OFF) →
      pam_authenticate_conv_loop strdup_ok password msg i response = none := by
  intro msg
  induction msg with
  | nil => intro i response h; simp at h
  | cons m rest ih =>
    intro i response h
    by_cases hm : m.msg_style = PAM_PROMPT_ECHO_OFF
    · have hrest : ∃ x ∈ rest, x.msg_style ≠ PAM_PROMPT_ECHO_OFF := by
        obtain ⟨x, hx, hne⟩ := h
        rcases List.mem_cons.mp hx with rfl | hx
        · exact absurd hm hne
        · exact ⟨x, hx, hne⟩
      rw [pam_authenticate_conv_loop, if_pos hm]
      exact ih (i + 1) _ hrest
    · rw [pam_authenticate_conv_loop, if_neg hm]

/-- C9: for N prompts that all have the style `PAM_PROMPT_ECHO_OFF` and a non-NULL password
(allocations succeeding), the callback returns `PAM_SUCCESS` and hands back exactly N responses:
response 0 is a copy of the password, every later response is NULL, every `resp_retcode` is 0. -/
theorem pam_authenticate_conv_hidden (prompts : List pam_message) (password : CString)
    (hstyle : ∀ m ∈ prompts, m.msg_style = PAM_PROMPT_ECHO_OFF) (hnul : 0 ∉ password) :
    ∃ responses,
      pam_authenticate_conv true true (some prompts) true (some password)
        = (PAM_SUCCESS, some responses) ∧
      responses.length = prompts.length ∧
      ∀ i, i < prompts.length →
        responses[i]? =
          some { resp := if i = 0 then some password else none, resp_retcode := 0 } := by
  unfold pam_authenticate_conv
  simp only [Bool.not_true, Bool.false_eq_true, if_false]
  rw [pam_authenticate_conv_loop_hidden true password prompts 0 [] hstyle]
  refine ⟨_, rfl, by simp, ?_⟩
  intro i hi
  simp only [List.nil_append, strdup, if_true, cstr_eq_self hnul]
  rw [List.getElem?_map, List.getElem?_range' _ _ hi]
  by_cases h0 : i = 0 <;> simp [h0]

theorem pam_authenticate_conv_hidden_witness :
    pam_authenticate_conv true true (some [{ msg_style := 1, msg := ascii "Password: " }]) true
        (some (ascii "secret"))
      = (PAM_SUCCESS, some [{ resp := some (ascii "secret"), resp_retcode := 0 }]) ∧
    pam_authenticate_conv true true (some [{ msg_style := 1, msg := ascii "Password: " }]) true
        (some [])
      = (PAM_SUCCESS, some [{ resp := some [], resp_retcode := 0 }]) ∧
    ∃ responses,
      pam_authenticate_conv true true
        (some [{ msg_style := 1, msg := ascii "Password: " },
               { msg_style := 1, msg := ascii "Token: " }]) true (some (ascii "secret"))
        = (PAM_SUCCESS, some responses) ∧
      responses.length = 2 ∧
      ∀ i, i < 2 →
        responses[i]? =
          some { resp := if i = 0 then some (ascii "secret") else none, resp_retcode := 0 } :=
  ⟨by decide, by decide,
   pam_authenticate_conv_hidden
     [{ msg_style := 1, msg := ascii "Password: " }, { msg_style := 1, msg := ascii "Token: " }]
     (ascii "secret") (by decide) (by decide)⟩

/-- C10: when some prompt, at any index, has a style other than `PAM_PROMPT_ECHO_OFF`, the
callback returns `PAM_CONV_ERR` and assigns nothing to `*resp`, whatever the other prompts, the
password and the allocations are. -/
theorem pam_authenticate_conv_other_style (malloc_ok strdup_ok resp_given : Bool)
    (prompts : List pam_message) (appdata_ptr : Option CString)
    (hother : ∃ m ∈ prompts, m.msg_style ≠ PAM_PROMPT_ECHO_OFF) :
    pam_authenticate_conv malloc_ok strdup_ok (some prompts) resp_given appdata_ptr
      = (PAM_CONV_ERR, none) := by
  unfold pam_authenticate_conv
  cases resp_given with
  | false => rfl
  | true =>
    cases appdata_ptr with
    | none => rfl
    | some password =>
      simp only
      rw [pam_authenticate_conv_loop_other strdup_ok password prompts 0 [] hother]
      cases malloc_ok <;> rfl

theorem pam_authenticate_conv_other_style_witness :
    (∃ m ∈ [({ msg_style := PAM_PROMPT_ECHO_OFF, msg := ascii "Password: " } : pam_message),
            { msg_style := PAM_TEXT_INFO, msg := ascii "Last login: yesterday" }],
      m.msg_style ≠ PAM_PROMPT_ECHO_OFF) ∧
    pam_authenticate_conv true true
        (some [{ msg_style := PAM_PROMPT_ECHO_OFF, msg := ascii "Password: " },
               { msg_style := PAM_TEXT_INFO, msg := ascii "Last login: yesterday" }])
        true (some (ascii "secret"))
      = (PAM_CONV_ERR, none) :=
  ⟨by decide,
   pam_authenticate_conv_other_style true true true
     [{ msg_style := PAM_PROMPT_ECHO_OFF, msg := ascii "Password: " },
      { msg_style := PAM_TEXT_INFO, msg := ascii "Last login: yesterday" }]
     (some (ascii "secret")) (by decide)⟩

/-! ## Claim on `ap_escape_urlencoded` -/

/-- C8 (the code departs from the claim): where `char` is signed, the byte 0xE9 is passed to
`%02x` sign-extended, the text `ffffffe9` is cut to `ff`, and the write pointer moves on by 8:
`Jos\xE9` comes out as `Jos%ff` instead of `Jos%e9`, and for `\xE9=` the next write falls
outside the block of `3 * 2 + 1` bytes.  Where `char` is unsigned the same input gives
`Jos%e9`. -/
theorem ap_escape_urlencoded_high_byte :
    ap_escape_urlencoded true [74, 111, 115, 233] = some (ascii "Jos%ff") ∧
    ap_escape_urlencoded true [74, 111, 115, 233] ≠ some (ascii "Jos%e9") ∧
    ap_escape_urlencoded true [233, 61] = none ∧
    ap_escape_urlencoded false [74, 111, 115, 233] = some (ascii "Jos%e9") := by
  decide

/-! ### Where `ap_escape_urlencoded` does encode byte by byte -/

set_option maxRecDepth 100000 in
theorem fmt02x_byte : ∀ c : Nat, c < 256 →
    fmt02x ((c : Nat) : Int) = [hexDigit (c / 16), hexDigit (c % 16)] := by
  decide

theorem charValue_plain (signedChar : Bool) (c : Nat) (hc : c < 256)
    (h : signedChar = false ∨ c < 128) : charValue signedChar c = (c : Int) := by
  unfold charValue
  have hm : c % 256 = c := Nat.mod_eq_of_lt hc
  have hi : (c : Int) % 256 = (c : Int) := by omega
  rw [hm, hi]
  rcases h with h | h
  · simp [h]
  · have : ¬ 128 ≤ c := by omega
    simp [this]

theorem Block.store_at_end (w : List Nat) (cell : Option Nat) (t : Block) (v : Nat) :
    Block.store (w.map some ++ cell :: t) w.length v = some ((w ++ [v]).map some ++ t) := by
  unfold Block.store
  have hlt : w.length < (w.map some ++ cell :: t).length := by simp
  rw [if_pos hlt, List.set_append_right _ _ (by simp)]
  simp

theorem Block.storeAll_at_end : ∀ (cs w : List Nat) (t : Block), cs.length ≤ t.length →
    Block.storeAll (w.map some ++ t) w.length cs = some ((w ++ cs).map some ++ t.drop cs.length) := by
  intro cs
  induction cs with
  | nil => intro w t _; simp [Block.storeAll]
  | cons c cs ih =>
    intro w t h
    cases t with
    | nil => simp at h
    | cons cell t =>
      have h1 : cs.length ≤ t.length := by simpa using h
      have hl : w.length + 1 = (w ++ [c]).length := by simp
      rw [Block.storeAll, Block.store_at_end, Option.some_bind, hl, ih (w ++ [c]) t h1]
      simp

theorem Block.readCStr_written : ∀ (x : List Nat) (rest : Block), 0 ∉ x →
    Block.readCStr (x.map some ++ some 0 :: rest) = some x := by
  intro x
  induction x with
  | nil => intro rest _; simp [Block.readCStr]
  | cons c x ih =>
    intro rest h
    have hc : c ≠ 0 := fun e => h (by simp [e])
    have hx : 0 ∉ x := fun e => h (by simp [e])
    simp [Block.readCStr, hc, ih rest hx]

theorem hexDigit_pos (d : Nat) : hexDigit d ≠ 0 := by
  unfold hexDigit
  split <;> omega

theorem zero_not_mem_urlencoded_byte (b : Nat) (hb : b ≠ 0) : 0 ∉ urlencoded_byte b := by
  unfold urlencoded_byte
  split
  · simpa using fun e => hb e.symm
  · split
    · simp
    · simp only [List.mem_cons, List.mem_singleton, List.not_mem_nil, or_false, not_or]
      exact ⟨by decide, fun e => hexDigit_pos _ e.symm, fun e => hexDigit_pos _ e.symm⟩

theorem urlencoded_byte_length (b : Nat) : (urlencoded_byte b).length ≤ 3 := by
  unfold urlencoded_byte
  split
  · simp
  · split <;> simp

theorem ap_escape_urlencoded_loop_eq (signedChar : Bool) :
    ∀ (buffer w : List Nat) (t : Block),
      (∀ b ∈ buffer, 0 < b ∧ b < 256) →
      (signedChar = false ∨ ∀ b ∈ buffer, b < 128) →
      3 * buffer.length + 1 ≤ t.length →
      ∃ t1 : Block,
        ap_escape_urlencoded_loop signedChar buffer (w.map some ++ t) w.length =
          some ((w ++ (buffer.map urlencoded_byte).flatten).map some ++ t1,
            (w ++ (buffer.map urlencoded_byte).flatten).length) ∧
        1 ≤ t1.length := by
  intro buffer
  induction buffer with
  | nil =>
    intro w t _ _ ht
    exact ⟨t, by simp [ap_escape_urlencoded_loop], by simpa using ht⟩
  | cons c rest ih =>
    intro w t hbytes hplain ht
    have hc := hbytes c (List.mem_cons_self c rest)
    have hc0 : c ≠ 0 := by omega
    have hrest : ∀ b ∈ rest, 0 < b ∧ b < 256 := fun b hb => hbytes b (List.mem_cons_of_mem c hb)
    have hplain1 : signedChar = false ∨ ∀ b ∈ rest, b < 128 := by
      rcases hplain with h | h
      · exact Or.inl h
      · exact Or.inr (fun b hb => h b (List.mem_cons_of_mem c hb))
    have hplainc : signedChar = false ∨ c < 128 := by
      rcases hplain with h | h
      · exact Or.inl h
      · exact Or.inr (h c (List.mem_cons_self c rest))
    simp only [List.length_cons] at ht
    cases t with
    | nil => simp at ht
    | cons cell t =>
      simp only [List.length_cons] at ht
      rw [ap_escape_urlencoded_loop, if_neg hc0]
      by_cases hesc : (!apr_isalnum c && !strchr_safe c) = true
      · -- the byte is written as a percent sign and two digits
        have henc : urlencoded_byte c = [37, hexDigit (c / 16), hexDigit (c % 16)] := by
          simp only [Bool.and_eq_true, Bool.not_eq_true', strchr_safe, Bool.or_eq_false_iff,
            decide_eq_false_iff_not] at hesc
          unfold urlencoded_byte
          simp [hesc.1, hesc.2]
        have htext : fmt02x (charValue signedChar c) = [hexDigit (c / 16), hexDigit (c % 16)] := by
          rw [charValue_plain signedChar c hc.2 hplainc]
          exact fmt02x_byte c hc.2
        have hl : w.length + 1 = (w ++ [37]).length := by simp
        have ht3 : ([hexDigit (c / 16), hexDigit (c % 16)] ++ [0]).length ≤ t.length := by
          simp only [List.length_append, List.length_cons, List.length_nil]
          omega
        rw [if_pos hesc, Block.store_at_end, Option.some_bind]
        simp only [snprintf_02x, htext, OfNat.ofNat_ne_zero, if_false, List.take]
        rw [hl, Block.storeAll_at_end _ (w ++ [37]) t ht3]
        simp only [Option.map_some', Option.some_bind, List.length_cons, List.length_nil]
        have hblock : (w ++ [37] ++ ([hexDigit (c / 16), hexDigit (c % 16)] ++ [0])).map some
            ++ List.drop ([hexDigit (c / 16), hexDigit (c % 16)] ++ [0]).length t
            = (w ++ [37, hexDigit (c / 16), hexDigit (c % 16)]).map some
              ++ (some 0 :: t.drop 3) := by
          simp
        have hp : (w ++ [37]).length + (0 + 1 + 1)
            = (w ++ [37, hexDigit (c / 16), hexDigit (c % 16)]).length := by simp
        rw [hblock, hp]
        have hroom : 3 * rest.length + 1 ≤ (some 0 :: t.drop 3).length := by
          simp only [List.length_cons, List.length_drop]; omega
        obtain ⟨t1, h1, h2⟩ := ih (w ++ [37, hexDigit (c / 16), hexDigit (c % 16)])
          (some 0 :: t.drop 3) hrest hplain1 hroom
        refine ⟨t1, ?_, h2⟩
        rw [h1]
        simp [henc]
      · rw [if_neg hesc]
        have hroom : 3 * rest.length + 1 ≤ t.length := by omega
        by_cases h32 : c = 32
        · have henc : urlencoded_byte c = [43] := by
            subst h32
            decide
          rw [if_pos h32, Block.store_at_end, Option.some_bind]
          have hl : w.length + 1 = (w ++ [43]).length := by simp
          rw [hl]
          obtain ⟨t1, h1, h2⟩ := ih (w ++ [43]) t hrest hplain1 hroom
          refine ⟨t1, ?_, h2⟩
          rw [h1]
          simp [henc]
        · have henc : urlencoded_byte c = [c] := by
            simp only [Bool.and_eq_true, Bool.not_eq_true', strchr_safe, not_and,
              Bool.not_eq_false, Bool.or_eq_true, decide_eq_true_eq] at hesc
            unfold urlencoded_byte
            by_cases ha : apr_isalnum c = true
            · simp [ha]
            · have hs := hesc (by simpa using ha)
              have : c = 46 ∨ c = 45 ∨ c = 42 ∨ c = 95 := by omega
              rcases this with h | h | h | h <;> simp [h]
          rw [if_neg h32, Block.store_at_end, Option.some_bind]
          have hl : w.length + 1 = (w ++ [c]).length := by simp
          rw [hl]
          obtain ⟨t1, h1, h2⟩ := ih (w ++ [c]) t hrest hplain1 hroom
          refine ⟨t1, ?_, h2⟩
          rw [h1]
          simp [henc]

/-- Where `char` is unsigned, or when every byte of the input is below 0x80, the function
encodes byte by byte as the spec says. -/
theorem ap_escape_urlencoded_eq (signedChar : Bool) (buffer : CString)
    (hbytes : ∀ b ∈ buffer, 0 < b ∧ b < 256)
    (hplain : signedChar = false ∨ ∀ b ∈ buffer, b < 128) :
    ap_escape_urlencoded signedChar buffer = some (buffer.map urlencoded_byte).flatten := by
  have h0 : 0 ∉ buffer := fun h => absurd (hbytes 0 h).1 (by decide)
  have hout : 0 ∉ (buffer.map urlencoded_byte).flatten := by
    simp only [List.mem_flatten, List.mem_map, not_exists, not_and]
    rintro l ⟨b, hb, rfl⟩
    exact zero_not_mem_urlencoded_byte b (by have := (hbytes b hb).1; omega)
  unfold ap_escape_urlencoded
  simp only [strlen, cstr_eq_self h0]
  obtain ⟨t1, h1, h2⟩ := ap_escape_urlencoded_loop_eq signedChar buffer []
    (List.replicate (3 * buffer.length + 1) none) hbytes hplain (by simp)
  simp only [List.map_nil, List.nil_append, List.length_nil] at h1
  rw [h1, Option.some_bind]
  cases t1 with
  | nil => simp at h2
  | cons cell t1 =>
    rw [Block.store_at_end, Option.some_bind]
    simp only [List.map_append, List.map_cons, List.map_nil, List.append_assoc,
      List.singleton_append]
    exact Block.readCStr_written _ t1 hout

/-! ## Claims on `set_redirect_and_status` -/

/-- The status the function stores, for every argument: 303 without a status argument and when
the parsed value, converted to `int`, is 0 or outside 300..399, and that `int` otherwise. -/
theorem set_redirect_and_status_stored (cfg : authnz_pam_config_rec) (url : CString)
    (status : Option CString) :
    (set_redirect_and_status (some cfg) url status).1 =
      some { cfg with
        expired_redirect_url := apr_pstrdup (some url)
        expired_redirect_status :=
          match status with
          | none => HTTP_SEE_OTHER
          | some text =>
            if int_of_int64 (apr_atoi64 text) = 0 ∨ int_of_int64 (apr_atoi64 text) < 300 ∨
                int_of_int64 (apr_atoi64 text) > 399 then HTTP_SEE_OTHER
            else int_of_int64 (apr_atoi64 text) } := by
  unfold set_redirect_and_status
  cases status with
  | none => rfl
  | some text =>
    simp only
    by_cases h0 : int_of_int64 (apr_atoi64 text) = 0
    · rw [if_pos h0, if_pos (Or.inl h0)]
    · rw [if_neg h0]
      by_cases hr : int_of_int64 (apr_atoi64 text) < 300 ∨ int_of_int64 (apr_atoi64 text) > 399
      · rw [if_pos hr, if_pos (Or.inr hr)]
      · rw [if_neg hr, if_neg (by simp only [h0, false_or]; exact hr)]

/-- C11 (the code departs from the claim): the number 4294967598 lies outside 300..399, but the
64-bit value is cut to the `int` 302 before the range is tested, so 302 is stored and not 303;
likewise the text `302abc`, which is no number, is read as 302.  On the claim's own examples
(no status, `abc`, `200`, `302`) the stored status is the one it states. -/
theorem set_redirect_and_status_truncated :
    ((set_redirect_and_status (some empty_config) (ascii "https://host/renew")
        (some (ascii "4294967598"))).1.map (fun c => c.expired_redirect_status) = some 302) ∧
    ((set_redirect_and_status (some empty_config) (ascii "https://host/renew")
        (some (ascii "302abc"))).1.map (fun c => c.expired_redirect_status) = some 302) ∧
    ((set_redirect_and_status (some empty_config) (ascii "https://host/renew")
        none).1.map (fun c => c.expired_redirect_status) = some 303) ∧
    ((set_redirect_and_status (some empty_config) (ascii "https://host/renew")
        (some (ascii "abc"))).1.map (fun c => c.expired_redirect_status) = some 303) ∧
    ((set_redirect_and_status (some empty_config) (ascii "https://host/renew")
        (some (ascii "200"))).1.map (fun c => c.expired_redirect_status) = some 303) ∧
    ((set_redirect_and_status (some empty_config) (ascii "https://host/renew")
        (some (ascii "302"))).1.map (fun c => c.expired_redirect_status) = some 302) := by
  decide

/-- C18: after `set_redirect_and_status` has run on a configuration record, with any status
argument or none, the stored `expired_redirect_status` lies in 300..399. -/
theorem set_redirect_and_status_range (cfg : authnz_pam_config_rec) (url : CString)
    (status : Option CString) :
    ∃ stored, (set_redirect_and_status (some cfg) url status).1 = some stored ∧
      300 ≤ stored.expired_redirect_status ∧ stored.expired_redirect_status ≤ 399 := by
  rw [set_redirect_and_status_stored]
  refine ⟨_, rfl, ?_⟩
  cases status with
  | none => simp only [HTTP_SEE_OTHER]; decide
  | some text =>
    simp only
    by_cases h : int_of_int64 (apr_atoi64 text) = 0 ∨ int_of_int64 (apr_atoi64 text) < 300 ∨
        int_of_int64 (apr_atoi64 text) > 399
    · rw [if_pos h]; simp only [HTTP_SEE_OTHER]; decide
    · rw [if_neg h]
      simp only [not_or, not_lt, gt_iff_lt] at h
      exact ⟨h.2.1, h.2.2⟩

/-! ### The shape of the events of one call -/

theorem pam_open_events (P : Event → Prop) (st : Stubs) (pam_service : CString)
    (login password : Option CString)
    (hstart : P (Event.pam_start pam_service login password))
    (hitem : ∀ h, st.remote_host_or_ip = some h → P (Event.pam_set_item_rhost h)) :
    ∀ e ∈ (pam_open st pam_service login password).events, P e := by
  unfold pam_open
  by_cases h : st.pam_start = PAM_SUCCESS
  · cases hh : st.remote_host_or_ip with
    | none =>
      simp only [h, if_true]
      intro e he
      simp only [List.mem_singleton] at he
      subst he
      exact hstart
    | some host =>
      simp only [h, if_true]
      intro e he
      simp only [List.singleton_append, List.mem_cons, List.mem_singleton, List.not_mem_nil,
        or_false] at he
      rcases he with rfl | rfl
      · exact hstart
      · exact hitem _ hh
  · simp only [h, if_false]
    intro e he
    simp only [List.mem_singleton] at he
    subst he
    exact hstart

theorem pam_step_authenticate_events (P : Event → Prop) (st : Stubs) (login : Option CString)
    (steps : Nat) (hauth : steps &&& _PAM_STEP_AUTH ≠ 0 → P Event.pam_authenticate)
    (l : Locals) (hl : ∀ e ∈ l.events, P e) :
    ∀ e ∈ (pam_step_authenticate st login steps l).events, P e := by
  unfold pam_step_authenticate
  by_cases ha : steps &&& _PAM_STEP_AUTH ≠ 0
  · rw [if_pos ha]
    intro e he
    simp only [List.mem_append, List.mem_singleton] at he
    rcases he with he | rfl
    · exact hl e he
    · exact hauth ha
  · rw [if_neg ha]
    exact hl

theorem pam_step_account_events (P : Event → Prop) (st : Stubs) (r : request_rec)
    (login : Option CString) (steps : Nat)
    (hacct : steps &&& _PAM_STEP_ACCOUNT ≠ 0 → P Event.pam_acct_mgmt)
    (l : Locals) (hl : ∀ e ∈ l.events, P e) (x : Outcome ⊕ Locals)
    (h : pam_step_account st r login steps l = some x) :
    (∀ l1, x = Sum.inr l1 → ∀ e ∈ l1.events, P e) ∧
    (∀ o, x = Sum.inl o → ∃ pre fmt args, (∀ e ∈ pre, P e) ∧
      o.events = pre ++ [Event.ap_log_rerror LogLevel.APLOG_ERR fmt args,
        Event.ap_send_error_response] ∧
      o.result = authn_status.AUTH_DENIED ∧
      o.r.user = r.user ∧ o.r.subprocess_env = r.subprocess_env) := by
  by_cases hc : l.ret = PAM_SUCCESS ∧ steps &&& _PAM_STEP_ACCOUNT ≠ 0
  · have h2 : ∀ e ∈ l.events ++ [Event.pam_acct_mgmt], P e := by
      intro e he
      simp only [List.mem_append, List.mem_singleton] at he
      rcases he with he | rfl
      · exact hl e he
      · exact hacct hc.2
    by_cases hno : st.pam_acct_mgmt = PAM_NEW_AUTHTOK_REQD → expired_redirect_url r = none
    · rw [pam_step_account_run st r login steps l hc hno] at h
      simp only [Option.some.injEq] at h
      subst h
      constructor
      · intro l1 hl1
        simp only [Sum.inr.injEq] at hl1
        subst hl1
        exact h2
      · intro o ho
        simp at ho
    · have he : st.pam_acct_mgmt = PAM_NEW_AUTHTOK_REQD := by
        by_contra hne
        exact hno (fun e => absurd e hne)
      cases hconf : r.module_config with
      | none => exact absurd (fun _ => by simp [expired_redirect_url, hconf]) hno
      | some conf =>
        cases hurl : conf.expired_redirect_url with
        | none => exact absurd (fun _ => by simp [expired_redirect_url, hconf, hurl]) hno
        | some url =>
          rw [pam_step_account_redirect st r login steps l conf url hc he hconf hurl] at h
          simp only [pam_expired_redirect, Option.map_map, Option.map_eq_some',
            Function.comp] at h
          obtain ⟨loc, _, rfl⟩ := h
          constructor
          · intro l1 hl1
            simp at hl1
          · intro o ho
            simp only [Sum.inl.injEq] at ho
            subst ho
            exact ⟨_, _, _, h2, rfl, rfl, rfl, rfl⟩
  · rw [pam_step_account_skip st r login steps l hc] at h
    simp only [Option.some.injEq] at h
    subst h
    constructor
    · intro l1 hl1
      simp only [Sum.inr.injEq] at hl1
      subst hl1
      exact hl
    · intro o ho
      simp at ho

/-- The events of a call are stage calls followed by one of three endings: the redirect, the
denial, or the grant with the offer to the password cache when `steps` has the
authentication bit.  `P` is any property of the stage calls that can occur. -/
theorem pam_outcome_shape (P : Event → Prop) (st : Stubs) (r : request_rec)
    (pam_service : CString) (login password : Option CString) (steps : Nat)
    (hstart : P (Event.pam_start pam_service login password))
    (hitem : ∀ h, st.remote_host_or_ip = some h → P (Event.pam_set_item_rhost h))
    (hauth : steps &&& _PAM_STEP_AUTH ≠ 0 → P Event.pam_authenticate)
    (hacct : steps &&& _PAM_STEP_ACCOUNT ≠ 0 → P Event.pam_acct_mgmt)
    (o : Outcome)
    (h : pam_authenticate_with_login_password st r pam_service login password steps = some o) :
    ∃ pre, (∀ e ∈ pre, P e) ∧
      ((o.result = authn_status.AUTH_DENIED ∧ o.r.user = r.user ∧
          o.r.subprocess_env = r.subprocess_env ∧
          ∃ fmt args, o.events = pre ++ [Event.ap_log_rerror LogLevel.APLOG_ERR fmt args,
            Event.ap_send_error_response]) ∨
       (o.result = authn_status.AUTH_DENIED ∧
          ∃ code fmt args pamh,
            o.r =
              { r with subprocess_env :=
                         apr_table_setn r.subprocess_env "EXTERNAL_AUTH_ERROR"
                           (apr_pstrdup (some (st.pam_strerror code))) } ∧
            o.events = pre ++ [Event.pam_strerror code,
              Event.ap_log_rerror LogLevel.APLOG_WARNING fmt args, Event.pam_end pamh code]) ∨
       (o.result = authn_status.AUTH_GRANTED ∧
          o.r = { r with subprocess_env := apr_table_setn r.subprocess_env "REMOTE_USER" login
                         user := apr_pstrdup login } ∧
          ∃ fmt args pamh code,
            o.events = pre ++ [Event.ap_log_rerror LogLevel.APLOG_INFO fmt args,
              Event.pam_end pamh code] ++
              (if steps &&& _PAM_STEP_AUTH ≠ 0 then
                 Event.store_password_to_cache login password ::
                   store_password_to_cache st login password
               else []))) := by
  unfold pam_authenticate_with_login_password at h
  simp only [Option.map_eq_some'] at h
  obtain ⟨x, hx, rfl⟩ := h
  have ho := pam_open_events P st pam_service login password hstart hitem
  have hs : (∀ l1, x = Sum.inr l1 → ∀ e ∈ l1.events, P e) ∧
      (∀ o, x = Sum.inl o → ∃ pre fmt args, (∀ e ∈ pre, P e) ∧
        o.events = pre ++ [Event.ap_log_rerror LogLevel.APLOG_ERR fmt args,
          Event.ap_send_error_response] ∧
        o.result = authn_status.AUTH_DENIED ∧
        o.r.user = r.user ∧ o.r.subprocess_env = r.subprocess_env) := by
    unfold pam_steps at hx
    by_cases hr : (pam_open st pam_service login password).ret = PAM_SUCCESS
    · rw [if_pos hr] at hx
      exact pam_step_account_events P st r login steps hacct _
        (pam_step_authenticate_events P st login steps hauth _ ho) x hx
    · rw [if_neg hr] at hx
      simp only [Option.some.injEq] at hx
      subst hx
      constructor
      · intro l1 hl1
        simp only [Sum.inr.injEq] at hl1
        subst hl1
        exact ho
      · intro o ho1
        simp at ho1
  cases x with
  | inl early =>
    obtain ⟨pre, fmt, args, hpre, hev, hres, hu, henv⟩ := hs.2 early rfl
    exact ⟨pre, hpre, Or.inl ⟨hres, hu, henv, fmt, args, hev⟩⟩
  | inr l =>
    have hl := hs.1 l rfl
    refine ⟨l.events, hl, Or.inr ?_⟩
    by_cases hr : l.ret ≠ PAM_SUCCESS
    · left
      dsimp only
      unfold pam_conclude
      rw [if_pos hr]
      exact ⟨rfl, _, _, _, _, rfl, rfl⟩
    · right
      dsimp only
      unfold pam_conclude
      rw [if_neg hr]
      exact ⟨rfl, rfl, _, _, _, _, rfl⟩

theorem pam_result_cases (st : Stubs) (r : request_rec) (pam_service : CString)
    (login password : Option CString) (steps : Nat) (o : Outcome)
    (h : pam_authenticate_with_login_password st r pam_service login password steps = some o) :
    o.result = authn_status.AUTH_DENIED ∨ o.result = authn_status.AUTH_GRANTED := by
  obtain ⟨_, _, hshape⟩ := pam_outcome_shape (fun _ => True) st r pam_service login password steps
    trivial (fun _ _ => trivial) (fun _ => trivial) (fun _ => trivial) o h
  rcases hshape with h1 | h1 | h1
  · exact Or.inl h1.1
  · exact Or.inl h1.1
  · exact Or.inr h1.1

/-! ## Claims on the providers -/

/-- C13: with a configuration record, `pam_auth_account` returns `AUTH_GENERAL_ERROR` exactly
when the record has no service name, and then it makes no call and leaves the request as it
is; with a service name it returns what `pam_authenticate_with_login_password` returns for that
service, the login, the password and both steps, which is never `AUTH_GENERAL_ERROR`. -/
theorem pam_auth_account_verdict (st : Stubs) (r : request_rec) (login password : Option CString)
    (conf : authnz_pam_config_rec) (hconf : r.module_config = some conf) :
    (conf.pam_service = none →
      pam_auth_account st r login password =
        some { result := authn_status.AUTH_GENERAL_ERROR, r := r, events := [] }) ∧
    (∀ pam_service, conf.pam_service = some pam_service →
      pam_auth_account st r login password =
        pam_authenticate_with_login_password st r pam_service login password _PAM_STEP_ALL) ∧
    (∀ pam_service o,
      pam_authenticate_with_login_password st r pam_service login password _PAM_STEP_ALL
        = some o → o.result ≠ authn_status.AUTH_GENERAL_ERROR) ∧
    (∀ o, pam_auth_account st r login password = some o →
      (o.result = authn_status.AUTH_GENERAL_ERROR ↔ conf.pam_service = none)) := by
  have hne : ∀ pam_service o,
      pam_authenticate_with_login_password st r pam_service login password _PAM_STEP_ALL
        = some o → o.result ≠ authn_status.AUTH_GENERAL_ERROR := by
    intro pam_service o ho hres
    rcases pam_result_cases st r pam_service login password _PAM_STEP_ALL o ho with h | h
    · rw [h] at hres; cases hres
    · rw [h] at hres; cases hres
  refine ⟨?_, ?_, hne, ?_⟩
  · intro hnone
    simp only [pam_auth_account, hconf, hnone]
  · intro pam_service hsome
    simp only [pam_auth_account, hconf, hsome]
  · intro o ho
    cases hs : conf.pam_service with
    | none =>
      simp only [pam_auth_account, hconf, hs, Option.some.injEq] at ho
      subst ho
      simp
    | some pam_service =>
      simp only [pam_auth_account, hconf, hs] at ho
      simp only [reduceCtorEq, iff_false]
      exact hne pam_service o ho

theorem pam_auth_account_verdict_witness :
    pam_auth_account stubs_success request_without_service (some (ascii "bob"))
        (some (ascii "secret")) =
      some { result := authn_status.AUTH_GENERAL_ERROR, r := request_without_service,
             events := [] } ∧
    pam_auth_account stubs_success request_with_redirect (some (ascii "bob"))
        (some (ascii "secret")) =
      pam_authenticate_with_login_password stubs_success request_with_redirect (ascii "webapp")
        (some (ascii "bob")) (some (ascii "secret")) _PAM_STEP_ALL ∧
    (pam_auth_account stubs_success request_with_redirect (some (ascii "bob"))
        (some (ascii "secret"))).map Outcome.result = some authn_status.AUTH_GRANTED ∧
    (pam_auth_account stubs_auth_err request_with_redirect (some (ascii "bob"))
        (some (ascii "wrong"))).map Outcome.result = some authn_status.AUTH_DENIED :=
  ⟨(pam_auth_account_verdict stubs_success request_without_service (some (ascii "bob"))
      (some (ascii "secret")) empty_config rfl).1 rfl,
   (pam_auth_account_verdict stubs_success request_with_redirect (some (ascii "bob"))
      (some (ascii "secret"))
      { pam_service := some (ascii "webapp")
        expired_redirect_url := some (ascii "https://host/renew?u=%u")
        expired_redirect_status := 307 } rfl).2.1 (ascii "webapp") rfl,
   by decide, by decide⟩

theorem step_account_no_auth : ¬ (_PAM_STEP_ACCOUNT &&& _PAM_STEP_AUTH ≠ 0) := by decide

/-- With the account step alone, `pam_authenticate` is not called and nothing is offered to the
password cache. -/
theorem pam_account_only_events (st : Stubs) (r : request_rec) (pam_service : CString)
    (login password : Option CString) (o : Outcome)
    (h : pam_authenticate_with_login_password st r pam_service login password _PAM_STEP_ACCOUNT
      = some o) :
    Event.pam_authenticate ∉ o.events ∧
    ∀ l p, Event.store_password_to_cache l p ∉ o.events := by
  obtain ⟨pre, hpre, hshape⟩ := pam_outcome_shape
    (fun e => e ≠ Event.pam_authenticate ∧ ∀ l p, e ≠ Event.store_password_to_cache l p)
    st r pam_service login password _PAM_STEP_ACCOUNT
    ⟨by simp, by simp⟩ (fun _ _ => ⟨by simp, by simp⟩)
    (fun ha => absurd ha step_account_no_auth) (fun _ => ⟨by simp, by simp⟩) o h
  have hpre1 : Event.pam_authenticate ∉ pre := fun hm => (hpre _ hm).1 rfl
  have hpre2 : ∀ l p, Event.store_password_to_cache l p ∉ pre :=
    fun l p hm => (hpre _ hm).2 l p rfl
  rcases hshape with ⟨_, _, _, fmt, args, hev⟩ | ⟨_, code, fmt, args, pamh, _, hev⟩ |
    ⟨_, _, fmt, args, pamh, code, hev⟩
  · rw [hev]
    refine ⟨by simp [hpre1], fun l p => by simp [hpre2 l p]⟩
  · rw [hev]
    refine ⟨by simp [hpre1], fun l p => by simp [hpre2 l p]⟩
  · rw [hev, if_neg step_account_no_auth]
    refine ⟨by simp [hpre1], fun l p => by simp [hpre2 l p]⟩

/-- C12: without an authenticated login `check_user_access` denies and does not call the
verification routine; with an empty or missing service name it returns `AUTHZ_DENIED` and does
not call it; otherwise it calls the routine once, with the service name, the login, no password
and the account step alone, and it returns `AUTHZ_GRANTED` exactly when that call returns
`AUTH_GRANTED`, and `AUTHZ_DENIED` otherwise. -/
theorem check_user_access_verdict (st : Stubs) (ap_getword_conf : CString → Option CString)
    (r : request_rec) (require_args : CString) :
    (r.user = none →
      check_user_access st ap_getword_conf r require_args =
        some { result := authz_status.AUTHZ_DENIED_NO_USER, r := r, events := [],
               calls := [] }) ∧
    (∀ user, r.user = some user →
      (∀ pam_service, ap_getword_conf require_args = some pam_service →
        pam_service.headD 0 = 0) →
      check_user_access st ap_getword_conf r require_args =
        some { result := authz_status.AUTHZ_DENIED, r := r, events := [], calls := [] }) ∧
    (∀ user pam_service o, r.user = some user →
      ap_getword_conf require_args = some pam_service → pam_service.headD 0 ≠ 0 →
      pam_authenticate_with_login_password st r pam_service (some user) none _PAM_STEP_ACCOUNT
        = some o →
      ∃ a, check_user_access st ap_getword_conf r require_args = some a ∧
        a.calls = [{ pam_service := pam_service, login := some user, password := none,
                     steps := _PAM_STEP_ACCOUNT }] ∧
        (a.result = authz_status.AUTHZ_GRANTED ↔ o.result = authn_status.AUTH_GRANTED) ∧
        (a.result = authz_status.AUTHZ_GRANTED ∨ a.result = authz_status.AUTHZ_DENIED) ∧
        a.r = o.r ∧ a.events = o.events ∧ Event.pam_authenticate ∉ a.events) := by
  refine ⟨?_, ?_, ?_⟩
  · intro hu
    simp only [check_user_access, hu]
  · intro user hu hempty
    cases hw : ap_getword_conf require_args with
    | none => simp only [check_user_access, hu, hw]
    | some pam_service =>
      have h0 := hempty pam_service hw
      simp only [check_user_access, hu, hw]
      rw [if_neg (not_not.mpr h0)]
  · intro user pam_service o hu hw h0 ho
    have hev := (pam_account_only_events st r pam_service (some user) none o ho).1
    simp only [check_user_access, hu, hw]
    rw [if_pos h0, ho]
    refine ⟨_, rfl, rfl, ?_, ?_, rfl, rfl, hev⟩
    · by_cases hg : o.result = authn_status.AUTH_GRANTED
      · simp [hg]
      · simp [hg]
    · by_cases hg : o.result = authn_status.AUTH_GRANTED
      · simp [hg]
      · simp [hg]

theorem check_user_access_verdict_witness :
    check_user_access stubs_success first_word request_with_redirect (ascii "webapp") =
      some { result := authz_status.AUTHZ_DENIED_NO_USER, r := request_with_redirect,
             events := [], calls := [] } ∧
    check_user_access stubs_success first_word request_of_bob [] =
      some { result := authz_status.AUTHZ_DENIED, r := request_of_bob, events := [],
             calls := [] } ∧
    (∃ a, check_user_access stubs_success first_word request_of_bob (ascii "webapp") = some a ∧
      a.calls = [{ pam_service := ascii "webapp", login := some (ascii "bob"), password := none,
                   steps := _PAM_STEP_ACCOUNT }] ∧
      a.result = authz_status.AUTHZ_GRANTED) ∧
    (∃ a, check_user_access stubs_acct_expired first_word request_of_bob (ascii "webapp")
        = some a ∧
      a.calls = [{ pam_service := ascii "webapp", login := some (ascii "bob"), password := none,
                   steps := _PAM_STEP_ACCOUNT }] ∧
      a.result = authz_status.AUTHZ_DENIED) := by
  have hg : (pam_authenticate_with_login_password stubs_success request_of_bob (ascii "webapp")
      (some (ascii "bob")) none _PAM_STEP_ACCOUNT).map Outcome.result
        = some authn_status.AUTH_GRANTED := by decide
  obtain ⟨o, ho, hres⟩ := Option.map_eq_some'.mp hg
  have hd : (pam_authenticate_with_login_password stubs_acct_expired request_of_bob
      (ascii "webapp") (some (ascii "bob")) none _PAM_STEP_ACCOUNT).map Outcome.result
        = some authn_status.AUTH_DENIED := by decide
  obtain ⟨o2, ho2, hres2⟩ := Option.map_eq_some'.mp hd
  refine ⟨(check_user_access_verdict stubs_success first_word request_with_redirect
      (ascii "webapp")).1 rfl,
    (check_user_access_verdict stubs_success first_word request_of_bob []).2.1 (ascii "bob")
      rfl (by decide), ?_, ?_⟩
  · obtain ⟨a, ha, hcalls, hiff, _⟩ :=
      (check_user_access_verdict stubs_success first_word request_of_bob (ascii "webapp")).2.2
        (ascii "bob") (ascii "webapp") o rfl (by decide) (by decide) ho
    exact ⟨a, ha, hcalls, hiff.mpr hres⟩
  · obtain ⟨a, ha, hcalls, hiff, hor, _⟩ :=
      (check_user_access_verdict stubs_acct_expired first_word request_of_bob
        (ascii "webapp")).2.2 (ascii "bob") (ascii "webapp") o2 rfl (by decide) (by decide) ho2
    refine ⟨a, ha, hcalls, ?_⟩
    rcases hor with h | h
    · rw [hiff.mp h] at hres2
      cases hres2
    · exact h

/-! ## Claims on the order of the stages and on the password cache -/

theorem pam_run_start_fail (st : Stubs) (r : request_rec) (pam_service : CString)
    (login password : Option CString) (steps : Nat) (hstart : st.pam_start ≠ PAM_SUCCESS) :
    pam_authenticate_with_login_password st r pam_service login password steps =
      some (pam_conclude st r login password steps false
        { ret := st.pam_start
          stage := "PAM transaction failed for service"
          param := some pam_service
          events := [Event.pam_start pam_service login password] }) := by
  have hopen : pam_open st pam_service login password =
      { ret := st.pam_start
        stage := "PAM transaction failed for service"
        param := some pam_service
        events := [Event.pam_start pam_service login password] } := by
    unfold pam_open
    simp only
    rw [if_neg hstart]
  unfold pam_authenticate_with_login_password pam_steps
  rw [hopen, if_neg hstart]
  simp [hstart]

theorem pam_run_set_item_fail (st : Stubs) (r : request_rec) (pam_service : CString)
    (login password : Option CString) (steps : Nat) (host : CString)
    (hstart : st.pam_start = PAM_SUCCESS) (hhost : st.remote_host_or_ip = some host)
    (hitem : st.pam_set_item ≠ PAM_SUCCESS) :
    pam_authenticate_with_login_password st r pam_service login password steps =
      some (pam_conclude st r login password steps true
        { ret := st.pam_set_item
          stage := "PAM pam_set_item PAM_RHOST failed for service"
          param := some pam_service
          events := [Event.pam_start pam_service login password,
            Event.pam_set_item_rhost host] }) := by
  have hopen : pam_open st pam_service login password =
      { ret := st.pam_set_item
        stage := "PAM pam_set_item PAM_RHOST failed for service"
        param := some pam_service
        events := [Event.pam_start pam_service login password,
          Event.pam_set_item_rhost host] } := by
    unfold pam_open
    simp only
    rw [if_pos hstart, hhost]
    rfl
  unfold pam_authenticate_with_login_password pam_steps
  rw [hopen, if_neg hitem]
  simp [hstart]

theorem pam_run_auth_fail_eq (st : Stubs) (r : request_rec) (pam_service : CString)
    (login password : Option CString) (steps : Nat)
    (hopen : (pam_open st pam_service login password).ret = PAM_SUCCESS)
    (hstep : steps &&& _PAM_STEP_AUTH ≠ 0) (hfail : st.pam_authenticate ≠ PAM_SUCCESS) :
    pam_authenticate_with_login_password st r pam_service login password steps =
      some (pam_conclude st r login password steps (decide (st.pam_start = PAM_SUCCESS))
        { pam_open st pam_service login password with
          param := login
          stage := "PAM authentication failed for user"
          ret := st.pam_authenticate
          events := (pam_open st pam_service login password).events ++
            [Event.pam_authenticate] }) := by
  have hauth : pam_step_authenticate st login steps (pam_open st pam_service login password) =
      { pam_open st pam_service login password with
        param := login
        stage := "PAM authentication failed for user"
        ret := st.pam_authenticate
        events := (pam_open st pam_service login password).events ++
          [Event.pam_authenticate] } := by
    unfold pam_step_authenticate
    rw [if_pos hstep]
  unfold pam_authenticate_with_login_password pam_steps
  rw [if_pos hopen, pam_step_account_skip, hauth]
  · rfl
  · rw [hauth]
    exact fun h => hfail h.1

/-- C14: once a stage fails no later stage is run, and the diagnostic is that of the failing
stage.  When `pam_start` fails the events are `pam_start`, the error lookup, the log line and
`pam_end`; when `pam_set_item` fails they are `pam_start`, `pam_set_item` and the same ending;
when `pam_authenticate` fails `pam_acct_mgmt` is not called.  In each case the result is
`AUTH_DENIED` and `EXTERNAL_AUTH_ERROR` holds a copy of the error string of the failing stage's
return code. -/
theorem pam_first_failure (st : Stubs) (r : request_rec) (pam_service : CString)
    (login password : Option CString) (steps : Nat) :
    (st.pam_start ≠ PAM_SUCCESS →
      ∃ o, pam_authenticate_with_login_password st r pam_service login password steps = some o ∧
        o.result = authn_status.AUTH_DENIED ∧
        o.events = [Event.pam_start pam_service login password,
          Event.pam_strerror st.pam_start,
          Event.ap_log_rerror LogLevel.APLOG_WARNING "%s %s: %s"
            [LogArg.text "PAM transaction failed for service", LogArg.str (some pam_service),
             LogArg.str (some (st.pam_strerror st.pam_start))],
          Event.pam_end false st.pam_start] ∧
        apr_table_get o.r.subprocess_env "EXTERNAL_AUTH_ERROR" =
          apr_pstrdup (some (st.pam_strerror st.pam_start))) ∧
    (∀ host, st.pam_start = PAM_SUCCESS → st.remote_host_or_ip = some host →
      st.pam_set_item ≠ PAM_SUCCESS →
      ∃ o, pam_authenticate_with_login_password st r pam_service login password steps = some o ∧
        o.result = authn_status.AUTH_DENIED ∧
        o.events = [Event.pam_start pam_service login password,
          Event.pam_set_item_rhost host,
          Event.pam_strerror st.pam_set_item,
          Event.ap_log_rerror LogLevel.APLOG_WARNING "%s %s: %s"
            [LogArg.text "PAM pam_set_item PAM_RHOST failed for service",
             LogArg.str (some pam_service),
             LogArg.str (some (st.pam_strerror st.pam_set_item))],
          Event.pam_end true st.pam_set_item] ∧
        apr_table_get o.r.subprocess_env "EXTERNAL_AUTH_ERROR" =
          apr_pstrdup (some (st.pam_strerror st.pam_set_item))) ∧
    (st.pam_start = PAM_SUCCESS →
      (st.remote_host_or_ip = none ∨ st.pam_set_item = PAM_SUCCESS) →
      steps &&& _PAM_STEP_AUTH ≠ 0 → st.pam_authenticate ≠ PAM_SUCCESS →
      ∃ o, pam_authenticate_with_login_password st r pam_service login password steps = some o ∧
        o.result = authn_status.AUTH_DENIED ∧
        Event.pam_acct_mgmt ∉ o.events ∧
        o.events = (pam_open st pam_service login password).events ++
          [Event.pam_authenticate,
           Event.pam_strerror st.pam_authenticate,
           Event.ap_log_rerror LogLevel.APLOG_WARNING "%s %s: %s"
             [LogArg.text "PAM authentication failed for user", LogArg.str login,
              LogArg.str (some (st.pam_strerror st.pam_authenticate))],
           Event.pam_end true st.pam_authenticate] ∧
        apr_table_get o.r.subprocess_env "EXTERNAL_AUTH_ERROR" =
          apr_pstrdup (some (st.pam_strerror st.pam_authenticate))) := by
  refine ⟨?_, ?_, ?_⟩
  · intro hstart
    rw [pam_run_start_fail st r pam_service login password steps hstart]
    refine ⟨_, rfl, ?_, ?_, ?_⟩
    · exact (pam_conclude_denied st r login password steps false _ hstart).1
    · unfold pam_conclude
      rw [if_pos hstart]
      rfl
    · rw [(pam_conclude_denied st r login password steps false _ hstart).2]
      exact apr_table_get_setn _ _ _
  · intro host hstart hhost hitem
    rw [pam_run_set_item_fail st r pam_service login password steps host hstart hhost hitem]
    refine ⟨_, rfl, ?_, ?_, ?_⟩
    · exact (pam_conclude_denied st r login password steps true _ hitem).1
    · unfold pam_conclude
      rw [if_pos hitem]
      rfl
    · rw [(pam_conclude_denied st r login password steps true _ hitem).2]
      exact apr_table_get_setn _ _ _
  · intro hstart hitem hstep hfail
    have hopen := pam_open_ret_success st pam_service login password hstart hitem
    have hno : Event.pam_acct_mgmt ∉ (pam_open st pam_service login password).events :=
      fun hm => pam_open_events (fun e => e ≠ Event.pam_acct_mgmt) st pam_service login password
        (by simp) (fun _ _ => by simp) _ hm rfl
    rw [pam_run_auth_fail_eq st r pam_service login password steps hopen hstep hfail]
    have hev : (pam_conclude st r login password steps (decide (st.pam_start = PAM_SUCCESS))
        { pam_open st pam_service login password with
          param := login
          stage := "PAM authentication failed for user"
          ret := st.pam_authenticate
          events := (pam_open st pam_service login password).events ++
            [Event.pam_authenticate] }).events =
        (pam_open st pam_service login password).events ++
          [Event.pam_authenticate,
           Event.pam_strerror st.pam_authenticate,
           Event.ap_log_rerror LogLevel.APLOG_WARNING "%s %s: %s"
             [LogArg.text "PAM authentication failed for user", LogArg.str login,
              LogArg.str (some (st.pam_strerror st.pam_authenticate))],
           Event.pam_end true st.pam_authenticate] := by
      unfold pam_conclude
      rw [if_pos hfail]
      simp [hstart]
    refine ⟨_, rfl, ?_, ?_, hev, ?_⟩
    · exact (pam_conclude_denied st r login password steps _ _ hfail).1
    · rw [hev]
      simp [hno]
    · rw [(pam_conclude_denied st r login password steps _ _ hfail).2]
      exact apr_table_get_setn _ _ _

theorem pam_first_failure_witness :
    (∃ o, pam_authenticate_with_login_password stubs_start_err request_with_redirect
          (ascii "webapp") (some (ascii "bob")) (some (ascii "secret")) _PAM_STEP_ALL = some o ∧
        o.result = authn_status.AUTH_DENIED ∧
        o.events = [Event.pam_start (ascii "webapp") (some (ascii "bob")) (some (ascii "secret")),
          Event.pam_strerror 4,
          Event.ap_log_rerror LogLevel.APLOG_WARNING "%s %s: %s"
            [LogArg.text "PAM transaction failed for service",
             LogArg.str (some (ascii "webapp")), LogArg.str (some (ascii "Unknown PAM error"))],
          Event.pam_end false 4] ∧
        apr_table_get o.r.subprocess_env "EXTERNAL_AUTH_ERROR" =
          some (ascii "Unknown PAM error")) ∧
    (∃ o, pam_authenticate_with_login_password stubs_item_err request_with_redirect
          (ascii "webapp") (some (ascii "bob")) (some (ascii "secret")) _PAM_STEP_ALL = some o ∧
        o.result = authn_status.AUTH_DENIED ∧
        o.events = [Event.pam_start (ascii "webapp") (some (ascii "bob")) (some (ascii "secret")),
          Event.pam_set_item_rhost (ascii "192.0.2.1"),
          Event.pam_strerror 5,
          Event.ap_log_rerror LogLevel.APLOG_WARNING "%s %s: %s"
            [LogArg.text "PAM pam_set_item PAM_RHOST failed for service",
             LogArg.str (some (ascii "webapp")), LogArg.str (some (ascii "Unknown PAM error"))],
          Event.pam_end true 5] ∧
        apr_table_get o.r.subprocess_env "EXTERNAL_AUTH_ERROR" =
          some (ascii "Unknown PAM error")) ∧
    (∃ o, pam_authenticate_with_login_password stubs_auth_err request_with_redirect
          (ascii "webapp") (some (ascii "bob")) (some (ascii "wrong")) _PAM_STEP_ALL = some o ∧
        o.result = authn_status.AUTH_DENIED ∧
        Event.pam_acct_mgmt ∉ o.events ∧
        o.events = [Event.pam_start (ascii "webapp") (some (ascii "bob")) (some (ascii "wrong")),
          Event.pam_set_item_rhost (ascii "192.0.2.1"),
          Event.pam_authenticate,
          Event.pam_strerror 7,
          Event.ap_log_rerror LogLevel.APLOG_WARNING "%s %s: %s"
            [LogArg.text "PAM authentication failed for user", LogArg.str (some (ascii "bob")),
             LogArg.str (some (ascii "Authentication failure"))],
          Event.pam_end true 7] ∧
        apr_table_get o.r.subprocess_env "EXTERNAL_AUTH_ERROR" =
          some (ascii "Authentication failure")) :=
  ⟨(pam_first_failure stubs_start_err request_with_redirect (ascii "webapp")
      (some (ascii "bob")) (some (ascii "secret")) _PAM_STEP_ALL).1 (by decide),
   (pam_first_failure stubs_item_err request_with_redirect (ascii "webapp")
      (some (ascii "bob")) (some (ascii "secret")) _PAM_STEP_ALL).2.1 (ascii "192.0.2.1")
      (by decide) (by decide) (by decide),
   (pam_first_failure stubs_auth_err request_with_redirect (ascii "webapp")
      (some (ascii "bob")) (some (ascii "wrong")) _PAM_STEP_ALL).2.2 (by decide) (by decide)
      (by decide) (by decide)⟩

theorem cache_offers_append (a b : List Event) :
    cache_offers (a ++ b) = cache_offers a + cache_offers b := by
  simp [cache_offers]

theorem cache_offers_of_none (events : List Event)
    (h : ∀ e ∈ events, ∀ l p, e ≠ Event.store_password_to_cache l p) :
    cache_offers events = 0 := by
  unfold cache_offers
  simp only [List.length_eq_zero, List.filter_eq_nil_iff]
  intro e he
  cases e <;> simp [Event.isCacheOffer]
  exact h _ he _ _ rfl

theorem store_password_to_cache_no_offer (st : Stubs) (login password : Option CString) :
    ∀ e ∈ store_password_to_cache st login password,
      ∀ l p, e ≠ Event.store_password_to_cache l p := by
  unfold store_password_to_cache
  split
  · split
    · simp
    · split <;> simp
  · simp

/-- The request and the result of a call do not depend on the password cache. -/
theorem pam_cache_independent (st : Stubs) (r : request_rec) (pam_service : CString)
    (login password : Option CString) (steps : Nat) (registered : Bool)
    (random : Option (List Nat)) (bcrypt : CString → List Nat → Option CString) :
    (pam_authenticate_with_login_password
        { st with authn_cache_store := registered
                  apr_generate_random_bytes := random
                  apr_bcrypt_encode := bcrypt }
        r pam_service login password steps).map (fun o => (o.result, o.r)) =
      (pam_authenticate_with_login_password st r pam_service login password steps).map
        (fun o => (o.result, o.r)) := by
  unfold pam_authenticate_with_login_password
  have hsteps : pam_steps
      { st with authn_cache_store := registered
                apr_generate_random_bytes := random
                apr_bcrypt_encode := bcrypt } r login steps
      (pam_open { st with authn_cache_store := registered
                          apr_generate_random_bytes := random
                          apr_bcrypt_encode := bcrypt } pam_service login password) =
      pam_steps st r login steps (pam_open st pam_service login password) := rfl
  rw [hsteps]
  cases pam_steps st r login steps (pam_open st pam_service login password) with
  | none => rfl
  | some x =>
    cases x with
    | inl early => rfl
    | inr l =>
      simp only [Option.map_some', Option.some.injEq]
      by_cases hr : l.ret ≠ PAM_SUCCESS
      · unfold pam_conclude
        rw [if_pos hr, if_pos hr]
      · unfold pam_conclude
        rw [if_neg hr, if_neg hr]

/-- C15: the call of `store_password_to_cache` is made exactly when the result is
`AUTH_GRANTED` and `steps` has the authentication bit, then once and with the login and the
password of the call; it is not made on a denial or a redirect, nor with the account step
alone; and the result and the request are the same whatever the cache adapter does. -/
theorem pam_cache_offer (st : Stubs) (r : request_rec) (pam_service : CString)
    (login password : Option CString) (steps : Nat) (o : Outcome)
    (h : pam_authenticate_with_login_password st r pam_service login password steps = some o) :
    cache_offers o.events =
      (if o.result = authn_status.AUTH_GRANTED ∧ steps &&& _PAM_STEP_AUTH ≠ 0 then 1 else 0) ∧
    (∀ l p, Event.store_password_to_cache l p ∈ o.events → l = login ∧ p = password) ∧
    (∀ registered random bcrypt,
      (pam_authenticate_with_login_password
          { st with authn_cache_store := registered
                    apr_generate_random_bytes := random
                    apr_bcrypt_encode := bcrypt }
          r pam_service login password steps).map (fun x => (x.result, x.r)) =
        some (o.result, o.r)) := by
  obtain ⟨pre, hpre, hshape⟩ := pam_outcome_shape
    (fun e => ∀ l p, e ≠ Event.store_password_to_cache l p)
    st r pam_service login password steps
    (by simp) (fun _ _ => by simp) (fun _ => by simp) (fun _ => by simp) o h
  have hpre0 := cache_offers_of_none pre hpre
  have hst := store_password_to_cache_no_offer st login password
  have hst0 := cache_offers_of_none _ hst
  refine ⟨?_, ?_, ?_⟩
  · rcases hshape with ⟨hres, _, _, fmt, args, hev⟩ | ⟨hres, code, fmt, args, pamh, _, hev⟩ |
      ⟨hres, _, fmt, args, pamh, code, hev⟩
    · rw [hev, cache_offers_append, hpre0, hres]
      simp [cache_offers, Event.isCacheOffer]
    · rw [hev, cache_offers_append, hpre0, hres]
      simp [cache_offers, Event.isCacheOffer]
    · rw [hev, cache_offers_append, cache_offers_append, hpre0, hres]
      by_cases hs : steps &&& _PAM_STEP_AUTH ≠ 0
      · rw [if_pos hs, if_pos ⟨rfl, hs⟩]
        have hc : cache_offers (Event.store_password_to_cache login password ::
            store_password_to_cache st login password) = 1 := by
          have := cache_offers_append [Event.store_password_to_cache login password]
            (store_password_to_cache st login password)
          simp only [List.singleton_append] at this
          rw [this, hst0]
          simp [cache_offers, Event.isCacheOffer]
        rw [hc]
        simp [cache_offers, Event.isCacheOffer]
      · rw [if_neg hs, if_neg (fun hh => hs hh.2)]
        simp [cache_offers, Event.isCacheOffer]
  · intro l p hm
    rcases hshape with ⟨_, _, _, fmt, args, hev⟩ | ⟨_, code, fmt, args, pamh, _, hev⟩ |
      ⟨_, _, fmt, args, pamh, code, hev⟩
    · rw [hev] at hm
      simp only [List.mem_append, List.mem_cons, reduceCtorEq, List.mem_singleton,
        List.not_mem_nil, or_false, or_self] at hm
      exact absurd rfl (hpre _ hm l p)
    · rw [hev] at hm
      simp only [List.mem_append, List.mem_cons, reduceCtorEq, List.mem_singleton,
        List.not_mem_nil, or_false, or_self] at hm
      exact absurd rfl (hpre _ hm l p)
    · rw [hev] at hm
      by_cases hs : steps &&& _PAM_STEP_AUTH ≠ 0
      · rw [if_pos hs] at hm
        simp only [List.mem_append, List.mem_cons, reduceCtorEq, List.mem_singleton,
          List.not_mem_nil, or_false, or_self, Event.store_password_to_cache.injEq] at hm
        rcases hm with hm | hm | hm
        · exact absurd rfl (hpre _ hm l p)
        · exact hm
        · exact absurd rfl (hst _ hm l p)
      · rw [if_neg hs] at hm
        simp only [List.mem_append, List.mem_cons, reduceCtorEq, List.mem_singleton,
          List.not_mem_nil, or_false, or_self] at hm
        exact absurd rfl (hpre _ hm l p)
  · intro registered random bcrypt
    rw [pam_cache_independent, h]
    rfl

theorem pam_cache_offer_witness :
    (∃ o, pam_authenticate_with_login_password stubs_cache request_with_redirect
          (ascii "webapp") (some (ascii "bob")) (some (ascii "secret")) _PAM_STEP_ALL = some o ∧
        o.result = authn_status.AUTH_GRANTED ∧ cache_offers o.events = 1 ∧
        Event.store_password_to_cache (some (ascii "bob")) (some (ascii "secret")) ∈ o.events) ∧
    (∃ o, pam_authenticate_with_login_password stubs_auth_err request_with_redirect
          (ascii "webapp") (some (ascii "bob")) (some (ascii "wrong")) _PAM_STEP_ALL = some o ∧
        o.result = authn_status.AUTH_DENIED ∧ cache_offers o.events = 0) ∧
    (∃ o, pam_authenticate_with_login_password stubs_cache request_of_bob
          (ascii "webapp") (some (ascii "bob")) none _PAM_STEP_ACCOUNT = some o ∧
        o.result = authn_status.AUTH_GRANTED ∧ cache_offers o.events = 0) := by
  have h1 : (pam_authenticate_with_login_password stubs_cache request_with_redirect
      (ascii "webapp") (some (ascii "bob")) (some (ascii "secret")) _PAM_STEP_ALL).map
      (fun o => (o.result,
        decide (Event.store_password_to_cache (some (ascii "bob")) (some (ascii "secret"))
          ∈ o.events))) = some (authn_status.AUTH_GRANTED, true) := by decide
  obtain ⟨o1, ho1, hr1⟩ := Option.map_eq_some'.mp h1
  have h2 : (pam_authenticate_with_login_password stubs_auth_err request_with_redirect
      (ascii "webapp") (some (ascii "bob")) (some (ascii "wrong")) _PAM_STEP_ALL).map
      Outcome.result = some authn_status.AUTH_DENIED := by decide
  obtain ⟨o2, ho2, hr2⟩ := Option.map_eq_some'.mp h2
  have h3 : (pam_authenticate_with_login_password stubs_cache request_of_bob
      (ascii "webapp") (some (ascii "bob")) none _PAM_STEP_ACCOUNT).map
      Outcome.result = some authn_status.AUTH_GRANTED := by decide
  obtain ⟨o3, ho3, hr3⟩ := Option.map_eq_some'.mp h3
  simp only [Prod.mk.injEq, decide_eq_true_eq] at hr1
  have c1 := (pam_cache_offer stubs_cache request_with_redirect (ascii "webapp")
    (some (ascii "bob")) (some (ascii "secret")) _PAM_STEP_ALL o1 ho1).1
  have c2 := (pam_cache_offer stubs_auth_err request_with_redirect (ascii "webapp")
    (some (ascii "bob")) (some (ascii "wrong")) _PAM_STEP_ALL o2 ho2).1
  have c3 := (pam_cache_offer stubs_cache request_of_bob (ascii "webapp")
    (some (ascii "bob")) none _PAM_STEP_ACCOUNT o3 ho3).1
  rw [if_pos ⟨hr1.1, step_all_auth⟩] at c1
  rw [if_neg (fun hh => by rw [hr2] at hh; cases hh.1)] at c2
  rw [if_neg (fun hh => step_account_no_auth hh.2)] at c3
  exact ⟨⟨o1, ho1, hr1.1, c1, hr1.2⟩, ⟨o2, ho2, hr2, c2⟩, ⟨o3, ho3, hr3, c3⟩⟩

/-- C16: `store_password_to_cache` calls the external cache store at most once; a call it makes
has the scheme `PAM`, the login, no extra value and the hash that `apr_bcrypt_encode` computed
from the password and the salt, and it is made only when a store is registered, login and
password are present and both the salt generation and the hashing succeed; under these
conditions the call is made, and it is the only thing the function does. -/
theorem store_password_to_cache_calls (st : Stubs) (login password : Option CString) :
    cache_store_calls (store_password_to_cache st login password) ≤ 1 ∧
    (∀ e ∈ store_password_to_cache st login password, e.isCacheStore = true →
      ∃ l pw salt hash, st.authn_cache_store = true ∧ login = some l ∧ password = some pw ∧
        st.apr_generate_random_bytes = some salt ∧ st.apr_bcrypt_encode pw salt = some hash ∧
        e = Event.authn_cache_store (ascii "PAM") l none hash) ∧
    (∀ l pw salt hash, st.authn_cache_store = true → login = some l → password = some pw →
      st.apr_generate_random_bytes = some salt → st.apr_bcrypt_encode pw salt = some hash →
      store_password_to_cache st login password =
        [Event.authn_cache_store (ascii "PAM") l none hash]) := by
  have hpam : ascii "PAM" = [80, 65, 77] := by decide
  refine ⟨?_, ?_, ?_⟩
  · unfold store_password_to_cache
    split
    · split
      · simp [cache_store_calls, Event.isCacheStore]
      · split <;> simp [cache_store_calls, Event.isCacheStore]
    · simp [cache_store_calls]
  · intro e he hstore
    unfold store_password_to_cache at he
    split at he
    · rename_i l pw hreg
      split at he
      · simp only [List.mem_singleton] at he
        subst he
        simp [Event.isCacheStore] at hstore
      · rename_i salt hsalt
        split at he
        · simp only [List.mem_singleton] at he
          subst he
          simp [Event.isCacheStore] at hstore
        · rename_i hash hhash
          simp only [List.mem_singleton] at he
          exact ⟨l, pw, salt, hash, hreg, rfl, rfl, hsalt, hhash, by rw [he, hpam]⟩
    · simp at he
  · intro l pw salt hash hreg hl hpw hsalt hhash
    subst hl hpw
    unfold store_password_to_cache
    simp only [hreg, hsalt, hhash, hpam]

theorem store_password_to_cache_calls_witness :
    store_password_to_cache stubs_cache (some (ascii "bob")) (some (ascii "secret")) =
      [Event.authn_cache_store (ascii "PAM") (ascii "bob") none
        (ascii "$2y$05$AQIDBAUGBwgJCgsMDQ4PEOo0NiA2uMZ7GzSWSgi8xGkGXImeZpUbK")] ∧
    store_password_to_cache stubs_cache (some (ascii "bob")) none = [] ∧
    store_password_to_cache stubs_success (some (ascii "bob")) (some (ascii "secret")) = [] ∧
    cache_store_calls
      (store_password_to_cache { stubs_cache with apr_generate_random_bytes := none }
        (some (ascii "bob")) (some (ascii "secret"))) = 0 ∧
    cache_store_calls
      (store_password_to_cache { stubs_cache with apr_bcrypt_encode := fun _ _ => none }
        (some (ascii "bob")) (some (ascii "secret"))) = 0 :=
  ⟨(store_password_to_cache_calls stubs_cache (some (ascii "bob"))
      (some (ascii "secret"))).2.2 (ascii "bob") (ascii "secret")
      [1, 2, 3, 4, 5, 6, 7, 8, 9, 10, 11, 12, 13, 14, 15, 16]
      (ascii "$2y$05$AQIDBAUGBwgJCgsMDQ4PEOo0NiA2uMZ7GzSWSgi8xGkGXImeZpUbK")
      rfl rfl rfl rfl rfl,
   by decide, by decide, by decide, by decide⟩

/-- With the account step alone and no password, every `pam_start` among the events was made
with a NULL password as the context of the conversation. -/
theorem pam_account_only_context (st : Stubs) (r : request_rec) (pam_service : CString)
    (login : Option CString) (o : Outcome)
    (h : pam_authenticate_with_login_password st r pam_service login none _PAM_STEP_ACCOUNT
      = some o) :
    ∀ service l pw, Event.pam_start service l pw ∈ o.events → pw = none := by
  obtain ⟨pre, hpre, hshape⟩ := pam_outcome_shape
    (fun e => ∀ service l pw, e = Event.pam_start service l pw → pw = none)
    st r pam_service login none _PAM_STEP_ACCOUNT
    (by intro service l pw he; simp only [Event.pam_start.injEq] at he; exact he.2.2.symm)
    (fun _ _ => by simp) (fun _ => by simp) (fun _ => by simp) o h
  intro service l pw hm
  rcases hshape with ⟨_, _, _, fmt, args, hev⟩ | ⟨_, code, fmt, args, pamh, _, hev⟩ |
    ⟨_, _, fmt, args, pamh, code, hev⟩
  · rw [hev] at hm
    simp only [List.mem_append, List.mem_cons, reduceCtorEq, List.mem_singleton,
      List.not_mem_nil, or_false, or_self] at hm
    exact hpre _ hm service l pw rfl
  · rw [hev] at hm
    simp only [List.mem_append, List.mem_cons, reduceCtorEq, List.mem_singleton,
      List.not_mem_nil, or_false, or_self] at hm
    exact hpre _ hm service l pw rfl
  · rw [hev, if_neg step_account_no_auth] at hm
    simp only [List.mem_append, List.mem_cons, reduceCtorEq, List.mem_singleton,
      List.not_mem_nil, or_false, or_self] at hm
    exact hpre _ hm service l pw rfl

/-- C17: `pam_authenticate_conv` returns `PAM_CONV_ERR` and assigns no responses whenever the
prompt array, the output pointer or the context is NULL, whatever the prompts and the
allocations are.  On the account re-validation path `check_user_access` calls the routine
with no password, so the session is opened with a NULL context, and with that context the
callback answers every prompt list with `PAM_CONV_ERR`. -/
theorem pam_authenticate_conv_null (malloc_ok strdup_ok : Bool) :
    (∀ (msg : Option (List pam_message)) (resp_given : Bool) (appdata_ptr : Option CString),
      (msg = none ∨ resp_given = false ∨ appdata_ptr = none) →
      pam_authenticate_conv malloc_ok strdup_ok msg resp_given appdata_ptr
        = (PAM_CONV_ERR, none)) ∧
    (∀ st ap_getword_conf r require_args a,
      check_user_access st ap_getword_conf r require_args = some a →
      (∀ inv ∈ a.calls, inv.password = none) ∧
      (∀ service l pw, Event.pam_start service l pw ∈ a.events →
        pw = none ∧
        ∀ msg resp_given,
          pam_authenticate_conv malloc_ok strdup_ok msg resp_given pw = (PAM_CONV_ERR, none))) := by
  have hconv : ∀ (msg : Option (List pam_message)) (resp_given : Bool)
      (appdata_ptr : Option CString),
      (msg = none ∨ resp_given = false ∨ appdata_ptr = none) →
      pam_authenticate_conv malloc_ok strdup_ok msg resp_given appdata_ptr
        = (PAM_CONV_ERR, none) := by
    intro msg resp_given appdata_ptr hnull
    unfold pam_authenticate_conv
    rcases hnull with h | h | h
    · subst h; rfl
    · subst h
      cases msg <;> rfl
    · subst h
      cases msg <;> cases resp_given <;> rfl
  refine ⟨hconv, ?_⟩
  intro st ap_getword_conf r require_args a ha
  unfold check_user_access at ha
  cases hu : r.user with
  | none =>
    simp only [hu, Option.some.injEq] at ha
    subst ha
    simp
  | some user =>
    simp only [hu] at ha
    cases hw : ap_getword_conf require_args with
    | none =>
      simp only [hw, Option.some.injEq] at ha
      subst ha
      simp
    | some pam_service =>
      simp only [hw] at ha
      by_cases h0 : pam_service.headD 0 ≠ 0
      · rw [if_pos h0] at ha
        simp only [Option.map_eq_some'] at ha
        obtain ⟨o, ho, rfl⟩ := ha
        refine ⟨by simp, ?_⟩
        intro service l pw hm
        have hpw := pam_account_only_context st r pam_service (some user) o ho service l pw hm
        exact ⟨hpw, fun msg resp_given => hconv msg resp_given pw (Or.inr (Or.inr hpw))⟩
      · rw [if_neg h0] at ha
        simp only [Option.some.injEq] at ha
        subst ha
        simp

theorem pam_authenticate_conv_null_witness :
    pam_authenticate_conv true true
        (some [{ msg_style := PAM_PROMPT_ECHO_OFF, msg := ascii "Password: " }]) true none
      = (PAM_CONV_ERR, none) ∧
    pam_authenticate_conv true true none true (some (ascii "secret")) = (PAM_CONV_ERR, none) ∧
    pam_authenticate_conv true true
        (some [{ msg_style := PAM_PROMPT_ECHO_OFF, msg := ascii "Password: " }]) false
        (some (ascii "secret"))
      = (PAM_CONV_ERR, none) ∧
    (∃ a, check_user_access stubs_success first_word request_of_bob (ascii "webapp") = some a ∧
      Event.pam_start (ascii "webapp") (some (ascii "bob")) none ∈ a.events ∧
      ∀ inv ∈ a.calls, inv.password = none) := by
  have h : (check_user_access stubs_success first_word request_of_bob (ascii "webapp")).map
      (fun a => decide (Event.pam_start (ascii "webapp") (some (ascii "bob")) none ∈ a.events))
      = some true := by decide
  obtain ⟨a, ha, hm⟩ := Option.map_eq_some'.mp h
  exact ⟨(pam_authenticate_conv_null true true).1 _ true none (Or.inr (Or.inr rfl)),
    (pam_authenticate_conv_null true true).1 none true _ (Or.inl rfl),
    (pam_authenticate_conv_null true true).1 _ false _ (Or.inr (Or.inl rfl)),
    a, ha, by simpa using hm,
    ((pam_authenticate_conv_null true true).2 stubs_success first_word request_of_bob
      (ascii "webapp") a ha).1⟩

/-! ## The frame of the verification routine -/

theorem key_eq_trans {a b c : String} (hab : key_eq a b = true) (hac : key_eq a c = true) :
    key_eq b c = true := by
  unfold key_eq at *
  simp only [beq_iff_eq] at *
  rw [← hab, hac]

theorem apr_table_get_filter (t : apr_table_t) (key other : String)
    (hne : key_eq key other = false) :
    apr_table_get (t.filter (fun e => !key_eq e.1 key)) other = apr_table_get t other := by
  induction t with
  | nil => rfl
  | cons e rest ih =>
    obtain ⟨k, v⟩ := e
    by_cases hk : key_eq k key = true
    · have hko : key_eq k other = false := by
        by_contra hcon
        have := key_eq_trans hk (by simpa using hcon)
        rw [hne] at this
        cases this
      simp [List.filter, hk, apr_table_get, hko, ih]
    · have hk1 : key_eq k key = false := by simpa using hk
      simp [List.filter, hk1, apr_table_get, ih]

/-- Setting one key leaves the value of every other key as it was. -/
theorem apr_table_get_setn_other (t : apr_table_t) (key other : String)
    (val : Option CString) (hne : key_eq key other = false) :
    apr_table_get (apr_table_setn t key val) other = apr_table_get t other := by
  induction t with
  | nil => simp [apr_table_setn, apr_table_get, hne]
  | cons e rest ih =>
    obtain ⟨k, v⟩ := e
    by_cases hk : key_eq k key = true
    · have hko : key_eq k other = false := by
        by_contra hcon
        have := key_eq_trans hk (by simpa using hcon)
        rw [hne] at this
        cases this
      simp [apr_table_setn, hk, apr_table_get, hko, apr_table_get_filter rest key other hne]
    · have hk1 : key_eq k key = false := by simpa using hk
      simp [apr_table_setn, hk1, apr_table_get, ih]

/-- C20: on `AUTH_DENIED`, by plain denial or by redirect, `r->user` and `REMOTE_USER` are
left as they were; on `AUTH_GRANTED`, `r->user` and `REMOTE_USER` are the login, and
`EXTERNAL_AUTH_ERROR`, the response headers and the status are left as they were. -/
theorem pam_frame (st : Stubs) (r : request_rec) (pam_service : CString)
    (login password : Option CString) (steps : Nat) (o : Outcome)
    (hlogin : ∀ l, login = some l → 0 ∉ l)
    (h : pam_authenticate_with_login_password st r pam_service login password steps = some o) :
    (o.result = authn_status.AUTH_DENIED →
      o.r.user = r.user ∧
      apr_table_get o.r.subprocess_env "REMOTE_USER" =
        apr_table_get r.subprocess_env "REMOTE_USER") ∧
    (o.result = authn_status.AUTH_GRANTED →
      o.r.user = login ∧
      apr_table_get o.r.subprocess_env "REMOTE_USER" = login ∧
      apr_table_get o.r.subprocess_env "EXTERNAL_AUTH_ERROR" =
        apr_table_get r.subprocess_env "EXTERNAL_AUTH_ERROR" ∧
      o.r.headers_out = r.headers_out ∧
      o.r.status = r.status) := by
  have hdup : apr_pstrdup login = login := by
    cases login with
    | none => rfl
    | some l => simp [apr_pstrdup, cstr_eq_self (hlogin l rfl)]
  obtain ⟨pre, _, hshape⟩ := pam_outcome_shape (fun _ => True) st r pam_service login password
    steps trivial (fun _ _ => trivial) (fun _ => trivial) (fun _ => trivial) o h
  rcases hshape with ⟨hres, hu, henv, _⟩ | ⟨hres, code, _, _, _, hr, _⟩ | ⟨hres, hr, _⟩
  · refine ⟨fun _ => ⟨hu, by rw [henv]⟩, fun hg => ?_⟩
    rw [hres] at hg
    cases hg
  · refine ⟨fun _ => ?_, fun hg => ?_⟩
    · rw [hr]
      exact ⟨rfl, apr_table_get_setn_other _ _ _ _ (by decide)⟩
    · rw [hres] at hg
      cases hg
  · refine ⟨fun hd => ?_, fun _ => ?_⟩
    · rw [hres] at hd
      cases hd
    · rw [hr]
      exact ⟨hdup, apr_table_get_setn _ _ _,
        apr_table_get_setn_other _ _ _ _ (by decide), rfl, rfl⟩

theorem pam_frame_witness :
    (∃ o, pam_authenticate_with_login_password stubs_success request_with_redirect
          (ascii "webapp") (some (ascii "bob")) (some (ascii "secret")) _PAM_STEP_ALL = some o ∧
        o.r.user = some (ascii "bob") ∧
        apr_table_get o.r.subprocess_env "REMOTE_USER" = some (ascii "bob") ∧
        apr_table_get o.r.subprocess_env "EXTERNAL_AUTH_ERROR" = none ∧
        o.r.headers_out = [] ∧ o.r.status = 200) ∧
    (∃ o, pam_authenticate_with_login_password stubs_expired request_with_redirect
          (ascii "webapp") (some (ascii "bob")) (some (ascii "secret")) _PAM_STEP_ALL = some o ∧
        o.r.user = none ∧ apr_table_get o.r.subprocess_env "REMOTE_USER" = none) ∧
    (∃ o, pam_authenticate_with_login_password stubs_auth_err request_of_bob
          (ascii "webapp") (some (ascii "alice")) (some (ascii "wrong")) _PAM_STEP_ALL = some o ∧
        o.r.user = some (ascii "bob") ∧ apr_table_get o.r.subprocess_env "REMOTE_USER" = none) := by
  have h1 : (pam_authenticate_with_login_password stubs_success request_with_redirect
      (ascii "webapp") (some (ascii "bob")) (some (ascii "secret")) _PAM_STEP_ALL).map
      Outcome.result = some authn_status.AUTH_GRANTED := by decide
  obtain ⟨o1, ho1, hr1⟩ := Option.map_eq_some'.mp h1
  have h2 : (pam_authenticate_with_login_password stubs_expired request_with_redirect
      (ascii "webapp") (some (ascii "bob")) (some (ascii "secret")) _PAM_STEP_ALL).map
      Outcome.result = some authn_status.AUTH_DENIED := by decide
  obtain ⟨o2, ho2, hr2⟩ := Option.map_eq_some'.mp h2
  have h3 : (pam_authenticate_with_login_password stubs_auth_err request_of_bob
      (ascii "webapp") (some (ascii "alice")) (some (ascii "wrong")) _PAM_STEP_ALL).map
      Outcome.result = some authn_status.AUTH_DENIED := by decide
  obtain ⟨o3, ho3, hr3⟩ := Option.map_eq_some'.mp h3
  have hbob : ∀ l, some (ascii "bob") = some l → 0 ∉ l := by
    intro l hl
    cases hl
    decide
  have halice : ∀ l, some (ascii "alice") = some l → 0 ∉ l := by
    intro l hl
    cases hl
    decide
  exact ⟨⟨o1, ho1, (pam_frame stubs_success request_with_redirect (ascii "webapp")
      (some (ascii "bob")) (some (ascii "secret")) _PAM_STEP_ALL o1 hbob ho1).2 hr1⟩,
    ⟨o2, ho2, (pam_frame stubs_expired request_with_redirect (ascii "webapp")
      (some (ascii "bob")) (some (ascii "secret")) _PAM_STEP_ALL o2 hbob ho2).1 hr2⟩,
    ⟨o3, ho3, (pam_frame stubs_auth_err request_of_bob (ascii "webapp")
      (some (ascii "alice")) (some (ascii "wrong")) _PAM_STEP_ALL o3 halice ho3).1 hr3⟩⟩

/-! ## The scan with offsets stays inside the template -/

theorem template_at_drop : ∀ (t : CString) (p : Nat), p ≤ t.length →
    (t.drop p = [] ∧ p = t.length ∧ template_at t p = some 0) ∨
    (∃ c rest, t.drop p = c :: rest ∧ p < t.length ∧ template_at t p = some c ∧
      t.drop (p + 1) = rest) := by
  intro t
  induction t with
  | nil =>
    intro p hp
    have h0 : p = 0 := by simpa using hp
    subst h0
    exact Or.inl ⟨rfl, rfl, rfl⟩
  | cons a t ih =>
    intro p hp
    cases p with
    | zero => exact Or.inr ⟨a, t, rfl, by simp, by simp [template_at], rfl⟩
    | succ k =>
      have hk : k ≤ t.length := by simpa using hp
      rcases ih k hk with ⟨h1, h2, h3⟩ | ⟨c, rest, h1, h2, h3, h4⟩
      · refine Or.inl ⟨by simpa using h1, by simp [h2], ?_⟩
        simpa [template_at] using h3
      · refine Or.inr ⟨c, rest, by simpa using h1, by simpa using h2, ?_, by simpa using h4⟩
        simpa [template_at] using h3

theorem template_at_next (t : CString) (p : Nat) (hp : p < t.length) :
    template_at t (p + 1) = some ((t.drop (p + 1)).headD 0) := by
  rcases template_at_drop t (p + 1) hp with ⟨h1, _, h3⟩ | ⟨c, rest, h1, _, h3, _⟩
  · rw [h1, h3]; rfl
  · rw [h1, h3]; rfl

theorem format_location_append_next (r : request_rec) (login : Option CString) (c next : Nat)
    (append : CString) (h : format_location_append r login c next = some append) :
    c = 37 ∧ next ≠ 0 := by
  unfold format_location_append at h
  by_cases hc : c = 37
  · refine ⟨hc, ?_⟩
    intro h0
    subst h0
    simp [hc] at h
  · simp [hc] at h

theorem drop_length_ne (t : CString) (p url : Nat) (hp : p ≤ t.length) (hu : url ≤ p) :
    ((t.drop p).length ≠ (t.drop url).length ↔ p ≠ url) ∧
    (t.drop url).length - (t.drop p).length = p - url := by
  simp only [List.length_drop]
  constructor
  · constructor
    · intro h e
      exact h (by rw [e])
    · intro h
      omega
  · omega

theorem scan_in_bounds_of_later (t : CString) (s s1 : Scan) (res : Scan × ScanExit)
    (h : scan_in_bounds t s1 res)
    (hreads : ∀ i ∈ s1.reads,
      i ∈ s.reads ∨ (i ≤ t.length ∧ ∀ j, j < i → template_at t j ≠ some 0))
    (hcopies : ∀ n ∈ s1.copies, n ∈ s.copies ∨ 0 ≤ n) :
    scan_in_bounds t s res := by
  obtain ⟨h1, h2, h3, h4, h5, h6⟩ := h
  refine ⟨h1, h2, h3, ?_, ?_, h6⟩
  · intro i hi
    rcases h4 i hi with hm | hg
    · exact hreads i hm
    · exact Or.inr hg
  · intro n hn
    rcases h5 n hn with hm | hg
    · exact hcopies n hm
    · exact Or.inr hg

theorem format_location_scan_finish (signedChar : Bool) (r : request_rec)
    (login : Option CString) (t : CString) (fuel : Nat) (s : Scan)
    (hat : template_at t s.p = some 0) :
    format_location_scan signedChar r login t (fuel + 1) s =
      ({ s with reads := s.reads ++ [s.p]
                out := if s.p ≠ s.url then apr_pstrcat [s.out, t.drop s.url] else s.out },
        ScanExit.finished) := by
  rw [format_location_scan]
  simp only [hat, if_true]

theorem format_location_scan_literal (signedChar : Bool) (r : request_rec)
    (login : Option CString) (t : CString) (fuel : Nat) (s : Scan) (c : Nat)
    (hat : template_at t s.p = some c) (hc0 : c ≠ 0) (hc : c ≠ 37) :
    format_location_scan signedChar r login t (fuel + 1) s =
      format_location_scan signedChar r login t fuel
        { s with reads := s.reads ++ [s.p], p := s.p + 1 } := by
  rw [format_location_scan]
  simp only [hat, if_neg hc0, if_neg hc]

theorem format_location_scan_stray (signedChar : Bool) (r : request_rec)
    (login : Option CString) (t : CString) (fuel : Nat) (s : Scan) (next : Nat)
    (hat : template_at t s.p = some 37) (hnext : template_at t (s.p + 1) = some next)
    (hA : format_location_append r login 37 next = none) :
    format_location_scan signedChar r login t (fuel + 1) s =
      format_location_scan signedChar r login t fuel
        { s with reads := s.reads ++ [s.p] ++ [s.p + 1], p := s.p + 1 } := by
  rw [format_location_scan]
  simp only [hat, hnext, hA, OfNat.ofNat_ne_zero, if_false, if_true]

theorem format_location_scan_token (signedChar : Bool) (r : request_rec)
    (login : Option CString) (t : CString) (fuel : Nat) (s : Scan) (next : Nat)
    (append : CString)
    (hat : template_at t s.p = some 37) (hnext : template_at t (s.p + 1) = some next)
    (hA : format_location_append r login 37 next = some append) :
    format_location_scan signedChar r login t (fuel + 1) s =
      match ap_escape_urlencoded signedChar append with
      | none =>
        ({ s with reads := s.reads ++ [s.p] ++ [s.p + 1]
                  copies := if s.p ≠ s.url then s.copies ++ [(s.p : Int) - (s.url : Int)]
                            else s.copies },
          ScanExit.escape_undefined)
      | some escaped =>
        format_location_scan signedChar r login t fuel
          { reads := s.reads ++ [s.p] ++ [s.p + 1]
            copies := if s.p ≠ s.url then s.copies ++ [(s.p : Int) - (s.url : Int)]
                      else s.copies
            out := apr_pstrcat [s.out,
              if s.p ≠ s.url then apr_pstrndup (t.drop s.url) (s.p - s.url) else [], escaped]
            p := s.p + 2
            url := s.p + 2 } := by
  rw [format_location_scan]
  simp only [hat, hnext, hA, OfNat.ofNat_ne_zero, if_false, if_true]
  by_cases hne : s.p ≠ s.url
  · simp only [if_pos hne]
  · simp only [if_neg hne]

/-- The loop with offsets, started inside the array with enough iterations left, stays inside
the array and computes what the loop on suffixes computes. -/
theorem format_location_scan_inv (signedChar : Bool) (r : request_rec) (login : Option CString)
    (t : CString) :
    ∀ (fuel : Nat) (s : Scan), s.url ≤ s.p → s.p ≤ t.length → t.length + 1 ≤ fuel + s.p →
      (∀ j, j < s.p → template_at t j ≠ some 0) →
      scan_in_bounds t s (format_location_scan signedChar r login t fuel s) ∧
      format_location_loop signedChar r login (t.drop s.p) (t.drop s.url) s.out =
        (if (format_location_scan signedChar r login t fuel s).2 = ScanExit.finished then
           some (format_location_scan signedChar r login t fuel s).1.out
         else none) := by
  intro fuel
  induction fuel with
  | zero =>
    intro s _ hp hf _
    omega
  | succ fuel ih =>
    intro s hu hp hf hnul
    have hgood : s.p ≤ t.length ∧ ∀ j, j < s.p → template_at t j ≠ some 0 := ⟨hp, hnul⟩
    have hlen := drop_length_ne t s.p s.url hp hu
    have hfinish : template_at t s.p = some 0 →
        format_location_loop signedChar r login (t.drop s.p) (t.drop s.url) s.out =
          some (format_location_finish (t.drop s.p) (t.drop s.url) s.out) →
        scan_in_bounds t s (format_location_scan signedChar r login t (fuel + 1) s) ∧
        format_location_loop signedChar r login (t.drop s.p) (t.drop s.url) s.out =
          (if (format_location_scan signedChar r login t (fuel + 1) s).2 = ScanExit.finished
           then some (format_location_scan signedChar r login t (fuel + 1) s).1.out
           else none) := by
      intro hat hloop
      rw [format_location_scan_finish signedChar r login t fuel s hat]
      constructor
      · refine ⟨Or.inl rfl, hu, hp, ?_, ?_, fun _ => hat⟩
        · intro i hi
          simp only [List.mem_append, List.mem_singleton] at hi
          rcases hi with hi | rfl
          · exact Or.inl hi
          · exact Or.inr hgood
        · intro n hn
          exact Or.inl hn
      · rw [hloop]
        simp only [if_true]
        unfold format_location_finish
        by_cases hne : s.p ≠ s.url
        · rw [if_pos (hlen.1.mpr hne), if_pos hne]
        · rw [if_neg (fun h => hne (hlen.1.mp h)), if_neg hne]
    rcases template_at_drop t s.p hp with ⟨hd, _, hat⟩ | ⟨c, rest, hd, hlt, hat, hrest⟩
    · apply hfinish hat
      rw [hd, format_location_loop]
    · by_cases hc0 : c = 0
      · subst hc0
        apply hfinish hat
        rw [hd, format_location_loop, if_pos rfl]
      · have hnul1 : ∀ j, j < s.p + 1 → template_at t j ≠ some 0 := by
          intro j hj
          by_cases hjp : j < s.p
          · exact hnul j hjp
          · have : j = s.p := by omega
            subst this
            rw [hat]
            simpa using hc0
        have hgood1 : s.p + 1 ≤ t.length ∧ ∀ j, j < s.p + 1 → template_at t j ≠ some 0 :=
          ⟨hlt, hnul1⟩
        have hnext := template_at_next t s.p hlt
        rw [hrest] at hnext
        -- the step that copies one character
        have hliteral : ∀ (s1 : Scan),
            format_location_scan signedChar r login t (fuel + 1) s =
              format_location_scan signedChar r login t fuel s1 →
            s1.p = s.p + 1 → s1.url = s.url → s1.out = s.out → s1.copies = s.copies →
            (∀ i ∈ s1.reads, i ∈ s.reads ∨
              (i ≤ t.length ∧ ∀ j, j < i → template_at t j ≠ some 0)) →
            format_location_append r login c (rest.headD 0) = none →
            scan_in_bounds t s (format_location_scan signedChar r login t (fuel + 1) s) ∧
            format_location_loop signedChar r login (t.drop s.p) (t.drop s.url) s.out =
              (if (format_location_scan signedChar r login t (fuel + 1) s).2
                  = ScanExit.finished
               then some (format_location_scan signedChar r login t (fuel + 1) s).1.out
               else none) := by
          intro s1 hstep hp1 hu1 hout1 hcopies1 hreads1 hA
          have hih := ih s1 (by rw [hu1, hp1]; omega) (by rw [hp1]; exact hlt)
            (by rw [hp1]; omega) (by rw [hp1]; exact hnul1)
          rw [hstep]
          refine ⟨scan_in_bounds_of_later t s s1 _ hih.1 hreads1
            (fun n hn => Or.inl (by rw [← hcopies1]; exact hn)), ?_⟩
          rw [← hih.2, hp1, hu1, hout1, hd, hrest, format_location_loop, if_neg hc0]
          simp only [hA]
        by_cases hc : c = 37
        · subst hc
          cases hA : format_location_append r login 37 (rest.headD 0) with
          | none =>
            apply hliteral _ (format_location_scan_stray signedChar r login t fuel s _ hat hnext
              hA) rfl rfl rfl rfl ?_ hA
            intro i hi
            simp only [List.mem_append, List.mem_singleton] at hi
            rcases hi with (hi | rfl) | rfl
            · exact Or.inl hi
            · exact Or.inr hgood
            · exact Or.inr hgood1
          | some append =>
            have hn0 := (format_location_append_next r login 37 _ append hA).2
            cases rest with
            | nil => simp at hn0
            | cons d rest2 =>
              simp only [List.headD_cons] at hn0 hA hnext
              have hdrop2 : s.p + 1 < t.length ∧ t.drop (s.p + 2) = rest2 := by
                rcases template_at_drop t (s.p + 1) hlt with ⟨h1, _, _⟩ |
                  ⟨c1, rest1, h1, h2, _, h4⟩
                · rw [hrest] at h1
                  cases h1
                · rw [hrest] at h1
                  simp only [List.cons.injEq] at h1
                  exact ⟨h2, by rw [h4, h1.2]⟩
              have hnul2 : ∀ j, j < s.p + 2 → template_at t j ≠ some 0 := by
                intro j hj
                by_cases hjp : j < s.p + 1
                · exact hnul1 j hjp
                · have : j = s.p + 1 := by omega
                  subst this
                  rw [hnext]
                  simpa using hn0
              rw [format_location_scan_token signedChar r login t fuel s d append hat hnext hA]
              have hpfx : (if (37 :: d :: rest2).length ≠ (t.drop s.url).length then
                    apr_pstrndup (t.drop s.url)
                      ((t.drop s.url).length - (37 :: d :: rest2).length)
                  else []) =
                  (if s.p ≠ s.url then apr_pstrndup (t.drop s.url) (s.p - s.url) else []) := by
                rw [hd] at hlen
                by_cases hne : s.p ≠ s.url
                · rw [if_pos (hlen.1.mpr hne), if_pos hne, hlen.2]
                · rw [if_neg (fun h => hne (hlen.1.mp h)), if_neg hne]
              have hreads2 : ∀ i ∈ s.reads ++ [s.p] ++ [s.p + 1],
                  i ∈ s.reads ∨ (i ≤ t.length ∧ ∀ j, j < i → template_at t j ≠ some 0) := by
                intro i hi
                simp only [List.mem_append, List.mem_singleton] at hi
                rcases hi with (hi | rfl) | rfl
                · exact Or.inl hi
                · exact Or.inr hgood
                · exact Or.inr hgood1
              have hcopies2 : ∀ n ∈ (if s.p ≠ s.url then
                    s.copies ++ [(s.p : Int) - (s.url : Int)] else s.copies),
                  n ∈ s.copies ∨ 0 ≤ n := by
                intro n hn
                by_cases hne : s.p ≠ s.url
                · rw [if_pos hne] at hn
                  simp only [List.mem_append, List.mem_singleton] at hn
                  rcases hn with hn | rfl
                  · exact Or.inl hn
                  · exact Or.inr (by omega)
                · rw [if_neg hne] at hn
                  exact Or.inl hn
              rw [hd, format_location_loop, if_neg (show ¬ (37 : Nat) = 0 by decide)]
              simp only [List.headD_cons, hA, hpfx]
              cases hE : ap_escape_urlencoded signedChar append with
              | none =>
                simp only [Option.none_bind, reduceCtorEq, if_false, and_true]
                exact ⟨Or.inr rfl, hu, hp, hreads2, hcopies2, fun h => by cases h⟩
              | some escaped =>
                simp only [Option.some_bind]
                have hih := ih
                  { reads := s.reads ++ [s.p] ++ [s.p + 1]
                    copies := if s.p ≠ s.url then s.copies ++ [(s.p : Int) - (s.url : Int)]
                              else s.copies
                    out := apr_pstrcat [s.out,
                      if s.p ≠ s.url then apr_pstrndup (t.drop s.url) (s.p - s.url) else [],
                      escaped]
                    p := s.p + 2
                    url := s.p + 2 }
                  (le_refl _) hdrop2.1 (by simp only; omega) hnul2
                simp only [hdrop2.2] at hih
                exact ⟨scan_in_bounds_of_later t s _ _ hih.1 hreads2 hcopies2, hih.2⟩
        · apply hliteral _ (format_location_scan_literal signedChar r login t fuel s c hat hc0
            hc) rfl rfl rfl rfl ?_ (format_location_append_of_ne r login c _ hc)
          intro i hi
          simp only [List.mem_append, List.mem_singleton] at hi
          rcases hi with hi | rfl
          · exact Or.inl hi
          · exact Or.inr hgood

/-- C19: the scan of `format_location` over a template, with the pointers as offsets into the
array of the template and its terminator, ends within `length + 1` iterations and never reads
outside the array; the scan position and the segment start satisfy `url ≤ p ≤ length`
throughout and at the end, where a finished scan stands on a NUL; every offset read is at most
the length and has no NUL in front of it, so the position, also after the double advance
behind a token, never passes the terminator; every length `p - url` passed to the copy is
non-negative; and the output is the one `format_location` returns. -/
theorem format_location_run_in_bounds (signedChar : Bool) (r : request_rec)
    (login : Option CString) (t : CString) :
    (format_location_run signedChar r login t).2 ≠ ScanExit.out_of_fuel ∧
    (format_location_run signedChar r login t).2 ≠ ScanExit.out_of_bounds ∧
    (format_location_run signedChar r login t).1.url ≤
      (format_location_run signedChar r login t).1.p ∧
    (format_location_run signedChar r login t).1.p ≤ t.length ∧
    (∀ i ∈ (format_location_run signedChar r login t).1.reads,
      i ≤ t.length ∧ ∀ j, j < i → template_at t j ≠ some 0) ∧
    (∀ n ∈ (format_location_run signedChar r login t).1.copies, 0 ≤ n) ∧
    ((format_location_run signedChar r login t).2 = ScanExit.finished →
      template_at t (format_location_run signedChar r login t).1.p = some 0) ∧
    format_location signedChar r t login =
      (if (format_location_run signedChar r login t).2 = ScanExit.finished then
         some (format_location_run signedChar r login t).1.out
       else none) := by
  have h := format_location_scan_inv signedChar r login t (t.length + 1)
    { p := 0, url := 0, out := [], reads := [], copies := [] }
    (le_refl _) (Nat.zero_le _) (le_refl _) (fun j hj => absurd hj (Nat.not_lt_zero j))
  obtain ⟨⟨h1, h2, h3, h4, h5, h6⟩, hlink⟩ := h
  unfold format_location_run
  refine ⟨?_, ?_, h2, h3, ?_, ?_, h6, ?_⟩
  · rcases h1 with h1 | h1 <;> rw [h1] <;> decide
  · rcases h1 with h1 | h1 <;> rw [h1] <;> decide
  · intro i hi
    rcases h4 i hi with hm | hg
    · simp at hm
    · exact hg
  · intro n hn
    rcases h5 n hn with hm | hg
    · simp at hm
    · exact hg
  · rw [← hlink]
    rfl

end ModAuthnzPam
